import Mathlib

/-!
# Local filesystem store: accessor and build-log lookup

A shallow embedding of `src/libstore/local-fs-store.cc`:

* `LocalStoreAccessor::toRealPath`, `stat`, `readDirectory`, `readFile`, `readLink`;
* `LocalFSStore::narFromPath`;
* `LocalFSStore::getBuildLog`.

A `std::string` is a sequence of `char`; it is embedded as `List Char`, one list
element per `char`, so `size()` is `List.length` and `std::string(s, pos)` is
`List.drop` guarded by the range check of the standard library.

The collaborators the file calls but does not define (the validity database, the
filesystem primitives, the codec, the archive encoder) are fields of `Store`.
Every call to one of them is recorded, in order, in the `calls` of an `Outcome`,
and a C++ exception is the `Except.error` of its `result`.
-/

namespace Nix

/-- A `Path` is a `std::string`: one element per `char`. -/
abbrev Path := List Char

/-- The exceptions that can cross this file. `InvalidPath` and `SysError` derive from
`nix::Error`; `std::out_of_range` does not. -/
inductive Exn where
  | invalidPath (msg : List Char)
  | sysError (msg : List Char)
  | error (msg : List Char)
  | outOfRange
  deriving DecidableEq, Repr

deriving instance DecidableEq for Except

/-- What `catch (Error &)` catches. -/
def Exn.isError : Exn → Bool
  | .invalidPath _ => true
  | .sysError _ => true
  | .error _ => true
  | .outOfRange => false

/-- What `catch (InvalidPath &)` catches. -/
def Exn.isInvalidPath : Exn → Bool
  | .invalidPath _ => true
  | _ => false

/-- The type of a filesystem entry as reported by `FileInfo::type()`. -/
inductive FileType where
  | regular | symlink | directory | block | character | fifo | socket | unknown
  deriving DecidableEq, Repr

/-- The result of `lstat`. The class is declared outside this file; the six
observers the accessor calls on it are taken as independent fields. -/
structure FileInfo where
  is_missing : Bool
  type : FileType
  is_regular : Bool
  is_symlink : Bool
  size : Nat
  is_executable : Bool
  deriving DecidableEq, Repr

/-- Modelled from the spec: the declaration of `FileInfo` is missing; the spec speaks of
one entry type per entry, so `is_regular()` and `is_symlink()` agree with `type()`. -/
def FileInfo.Coherent (fi : FileInfo) : Prop :=
  fi.is_regular = decide (fi.type = FileType.regular) ∧
  fi.is_symlink = decide (fi.type = FileType.symlink)

instance (fi : FileInfo) : Decidable fi.Coherent := by
  unfold FileInfo.Coherent; exact inferInstance

/-- `FSAccessor::Type`. -/
inductive AccessorType where
  | tMissing | tRegular | tSymlink | tDirectory
  deriving DecidableEq, Repr

/-- `FSAccessor::Stat`. -/
structure Stat where
  type : AccessorType
  fileSize : Nat
  isExecutable : Bool
  deriving DecidableEq, Repr

/-- An entry of `nix::readDirectory`; only its `name` is read here. -/
structure DirEntry where
  name : List Char
  deriving DecidableEq, Repr

/-- The part of `ValidPathInfo` that `getBuildLog` reads. -/
structure ValidPathInfo where
  deriver : Path
  deriving DecidableEq, Repr

/-- A call to a collaborator, as recorded in the trace of a run. -/
inductive Call where
  | isValidPath (p : Path)
  | queryPathInfo (p : Path)
  | lstat (p : Path)
  | readDirectory (p : Path)
  | readFile (p : Path)
  | readLink (p : Path)
  | pathExists (p : Path)
  | decompress (method : List Char) (data : List Char)
  | dumpPath (p : Path) (sink : Nat)
  deriving DecidableEq, Repr

/-- The calls that touch the filesystem. -/
def Call.isFilesystem : Call → Bool
  | .lstat _ => true
  | .readDirectory _ => true
  | .readFile _ => true
  | .readLink _ => true
  | .pathExists _ => true
  | .dumpPath _ _ => true
  | _ => false

/-- The calls that probe or read a file through `pathExists` or `readFile`. -/
def Call.isLogProbe : Call → Bool
  | .readFile _ => true
  | .pathExists _ => true
  | _ => false

/-- The store and everything the file reaches through it. -/
structure Store where
  storeDir : Path
  realStoreDir : Path
  logDir : Path
  toStorePath : Path → Except Exn Path
  isValidPath : Path → Bool
  assertStorePath : Path → Except Exn Unit
  isDerivation : Path → Bool
  baseNameOf : Path → List Char
  queryPathInfo : Path → Except Exn ValidPathInfo
  lstat : Path → Except Exn FileInfo
  readDirectory : Path → Except Exn (List DirEntry)
  readFile : Path → Except Exn (List Char)
  readLink : Path → Except Exn (List Char)
  pathExists : Path → Bool
  decompress : List Char → List Char → Except Exn (List Char)
  dumpPath : Path → Nat → Except Exn Unit

/-- The outcome of running a piece of the program: its value or exception, and the
collaborator calls it made, in order. -/
structure Outcome (α : Type) where
  result : Except Exn α
  calls : List Call
  deriving DecidableEq

namespace Outcome

/-- A value, no call. -/
def ret {α : Type} (a : α) : Outcome α := ⟨.ok a, []⟩

/-- A thrown exception, no call. -/
def raise {α : Type} (e : Exn) : Outcome α := ⟨.error e, []⟩

/-- Sequencing: the second part runs only if the first returned. -/
def andThen {α β : Type} (x : Outcome α) (f : α → Outcome β) : Outcome β :=
  match x.result with
  | .error e => ⟨.error e, x.calls⟩
  | .ok a => ⟨(f a).result, x.calls ++ (f a).calls⟩

/-- A `try` block with its handler; the handler rethrows what it does not catch. -/
def handle {α : Type} (x : Outcome α) (h : Exn → Outcome α) : Outcome α :=
  match x.result with
  | .error e => ⟨(h e).result, x.calls ++ (h e).calls⟩
  | .ok a => ⟨.ok a, x.calls⟩

/-- A pure computation that may throw. -/
def lift {α : Type} (r : Except Exn α) : Outcome α := ⟨r, []⟩

/-- One recorded call to a collaborator. -/
def call {α : Type} (c : Call) (r : Except Exn α) : Outcome α := ⟨r, [c]⟩

instance : Monad Outcome where
  pure := ret
  bind := andThen

instance : MonadExcept Exn Outcome where
  throw := raise
  tryCatch := handle

end Outcome

/-- `std::string(str, pos)`: the characters from `pos` on; `std::out_of_range` when
`pos > str.size()`. -/
def substrFrom (str : List Char) (pos : Nat) : Except Exn (List Char) :=
  if pos > str.length then .error Exn.outOfRange else .ok (str.drop pos)

/-- `std::string(str, pos, n)`: at most `n` characters from `pos` on;
`std::out_of_range` when `pos > str.size()`. -/
def substr (str : List Char) (pos n : Nat) : Except Exn (List Char) :=
  if pos > str.length then .error Exn.outOfRange else .ok ((str.drop pos).take n)

/-- `LocalStoreAccessor::toRealPath`. -/
def toRealPath (store : Store) (path : Path) : Outcome Path := do
  let storePath ← Outcome.lift (store.toStorePath path)
  if !(← Outcome.call (Call.isValidPath storePath) (.ok (store.isValidPath storePath))) then
    throw (Exn.invalidPath
      ("path \x27".toList ++ storePath ++ "\x27 is not a valid store path".toList))
  let suffix ← Outcome.lift (substrFrom path store.storeDir.length)
  return store.realStoreDir ++ suffix

/-- `LocalStoreAccessor::stat`. -/
def stat (store : Store) (path : Path) : Outcome Stat := do
  let realPath ← toRealPath store path
  let fi ← Outcome.call (Call.lstat realPath) (store.lstat realPath)
  if fi.is_missing then
    return ⟨AccessorType.tMissing, 0, false⟩
  match fi.type with
  | .regular | .symlink | .directory => pure ()
  | _ => throw (Exn.error
      ("file \x27".toList ++ path ++ "\x27 has unsupported type".toList))
  return ⟨if fi.is_regular then AccessorType.tRegular
          else if fi.is_symlink then AccessorType.tSymlink
          else AccessorType.tDirectory,
          fi.size,
          fi.is_regular && fi.is_executable⟩

/-- `LocalStoreAccessor::readDirectory`: the names are inserted one by one into a
`std::set`. -/
def readDirectory (store : Store) (path : Path) : Outcome (Finset (List Char)) := do
  let realPath ← toRealPath store path
  let entries ← Outcome.call (Call.readDirectory realPath) (store.readDirectory realPath)
  return entries.foldl (fun res entry => insert entry.name res) ∅

/-- `LocalStoreAccessor::readFile`. -/
def readFile (store : Store) (path : Path) : Outcome (List Char) := do
  let realPath ← toRealPath store path
  Outcome.call (Call.readFile realPath) (store.readFile realPath)

/-- `LocalStoreAccessor::readLink`. -/
def readLink (store : Store) (path : Path) : Outcome (List Char) := do
  let realPath ← toRealPath store path
  Outcome.call (Call.readLink realPath) (store.readLink realPath)

/-- `LocalFSStore::narFromPath`. -/
def narFromPath (store : Store) (path : Path) (sink : Nat) : Outcome Unit := do
  if !(← Outcome.call (Call.isValidPath path) (.ok (store.isValidPath path))) then
    throw (Exn.error ("path \x27".toList ++ path ++ "\x27 is not valid".toList))
  let suffix ← Outcome.lift (substrFrom path store.storeDir.length)
  let realPath := store.realStoreDir ++ suffix
  Outcome.call (Call.dumpPath realPath sink) (store.dumpPath realPath sink)

/-- `LocalFSStore::drvsLogDir`. -/
def drvsLogDir : List Char := "drvs".toList

/-- The `logPath` of iteration `j` of the loop of `getBuildLog`. -/
def logPathOf (store : Store) (baseName : List Char) (j : Nat) : Outcome Path :=
  if j = 0 then do
    let shard ← Outcome.lift (substr baseName 0 2)
    let rest ← Outcome.lift (substrFrom baseName 2)
    return store.logDir ++ "/".toList ++ drvsLogDir ++ "/".toList ++ shard ++ "/".toList ++ rest
  else
    return store.logDir ++ "/".toList ++ drvsLogDir ++ "/".toList ++ baseName

/-- The body of the loop of `getBuildLog` at iteration `j`: `some log` when the body
returns `log`, `none` when it falls through to the next iteration. -/
def getBuildLogTier (store : Store) (baseName : List Char) (j : Nat) :
    Outcome (Option (List Char)) := do
  let logPath ← logPathOf store baseName j
  let logBz2Path := logPath ++ ".bz2".toList
  if (← Outcome.call (Call.pathExists logPath) (.ok (store.pathExists logPath))) then
    let contents ← Outcome.call (Call.readFile logPath) (store.readFile logPath)
    return some contents
  else if (← Outcome.call (Call.pathExists logBz2Path) (.ok (store.pathExists logBz2Path))) then
    tryCatch
      (do
        let data ← Outcome.call (Call.readFile logBz2Path) (store.readFile logBz2Path)
        let text ← Outcome.call (Call.decompress "bzip2".toList data)
          (store.decompress "bzip2".toList data)
        return some text)
      (fun e => if e.isError then return none else throw e)
  else
    return none

/-- The loop `for (int j = 0; j < 2; j++)` of `getBuildLog`, from iteration `j` with
`n` iterations left, followed by the final `return nullptr`. -/
def getBuildLogLoop (store : Store) (baseName : List Char) :
    Nat → Nat → Outcome (Option (List Char))
  | _, 0 => return none
  | j, n + 1 => do
    match ← getBuildLogTier store baseName j with
    | some log => return some log
    | none => getBuildLogLoop store baseName (j + 1) n

/-- The first part of `getBuildLog`: the path whose log is looked up, `none` when the
function returns `nullptr` at this point. -/
def getBuildLogDrv (store : Store) (path_ : Path) : Outcome (Option Path) := do
  Outcome.lift (store.assertStorePath path_)
  if !store.isDerivation path_ then
    let queried ← tryCatch
      (do
        let info ← Outcome.call (Call.queryPathInfo path_) (store.queryPathInfo path_)
        return some info.deriver)
      (fun e => if e.isInvalidPath then return none else throw e)
    match queried with
    | none => return none
    | some path => if path = [] then return none else return some path
  else
    return some path_

/-- `LocalFSStore::getBuildLog`; `none` is `nullptr`. -/
def getBuildLog (store : Store) (path_ : Path) : Outcome (Option (List Char)) := do
  match ← getBuildLogDrv store path_ with
  | none => return none
  | some path => getBuildLogLoop store (store.baseNameOf path) 0 2

/-- Modelled from the spec: `Store::toStorePath` is defined outside this file. The owning
store path of a virtual path is its prefix up to the next path separator after the
store-directory root. -/
def toStorePathSpec (storeDir path : Path) : Path :=
  path.take (storeDir.length + 1) ++
    (path.drop (storeDir.length + 1)).takeWhile (fun c => c != '/')

/-- The last component of a path: the characters after its last separator. -/
def lastComponent (path : Path) : List Char :=
  (path.reverse.takeWhile (fun c => c != '/')).reverse

/-- A toy codec for the stub store: data that starts with `BZ` decompresses to what
follows, any other data is corrupt. -/
def stubDecompress (method data : List Char) : Except Exn (List Char) :=
  if method = "bzip2".toList then
    match data with
    | 'B' :: 'Z' :: text => .ok text
    | _ => .error (Exn.error "decompression failed".toList)
  else .error (Exn.error "unknown compression method".toList)

/-- A stub store over `/nix/store`, kept on disk under `/mnt/real`, with logs under
`/var/log/nix`. It is given by the list of its valid store paths, the recorded derivers
and the regular files present on disk with their contents. -/
def stubStore (valid : List Path) (derivers : List (Path × Path))
    (files : List (Path × List Char)) : Store where
  storeDir := "/nix/store".toList
  realStoreDir := "/mnt/real".toList
  logDir := "/var/log/nix".toList
  toStorePath := fun p => .ok (toStorePathSpec "/nix/store".toList p)
  isValidPath := fun p => decide (p ∈ valid)
  assertStorePath := fun p =>
    if "/nix/store/".toList.isPrefixOf p && toStorePathSpec "/nix/store".toList p == p
    then .ok () else .error (Exn.error "path is not in the Nix store".toList)
  isDerivation := fun p => ".drv".toList.isSuffixOf p
  baseNameOf := lastComponent
  queryPathInfo := fun p =>
    if p ∈ valid then .ok ⟨(derivers.lookup p).getD []⟩
    else .error (Exn.invalidPath "path is not valid".toList)
  lstat := fun p =>
    match files.lookup p with
    | some c => .ok ⟨false, FileType.regular, true, false, c.length, false⟩
    | none => .ok ⟨true, FileType.unknown, false, false, 0, false⟩
  readDirectory := fun _ => .error (Exn.sysError "not a directory".toList)
  readFile := fun p =>
    match files.lookup p with
    | some c => .ok c
    | none => .error (Exn.sysError "cannot open file".toList)
  readLink := fun _ => .error (Exn.sysError "not a symlink".toList)
  pathExists := fun p => (files.lookup p).isSome
  decompress := stubDecompress
  dumpPath := fun _ _ => .ok ()

/-- A stub store with one valid store path, `/nix/store/abc-foo`, holding one file. -/
def accessorStore : Store :=
  stubStore ["/nix/store/abc-foo".toList] []
    [("/mnt/real/abc-foo/share/doc/ü ñ*?.txt".toList, "hello".toList)]

/-- The components of a path read from left to right: the maximal runs of characters
other than the separator. `cur` is the component being read. -/
def splitComponents (cur : List Char) : Path → List (List Char)
  | [] => if cur = [] then [] else [cur]
  | c :: cs =>
    if c = '/' then
      if cur = [] then splitComponents [] cs else cur :: splitComponents [] cs
    else splitComponents (cur ++ [c]) cs

/-- The components of a path. -/
def components (path : Path) : List (List Char) := splitComponents [] path

/-- One step of lexical resolution: `.` stays, `..` goes up (the root is its own parent),
any other component goes down. -/
def resolveStep (dir : List (List Char)) (c : List Char) : List (List Char) :=
  if c = ".".toList then dir
  else if c = "..".toList then dir.dropLast
  else dir ++ [c]

/-- The lexical resolution of the `.` and `..` components of an absolute path: the
components of the directory entry it names. -/
def resolve (path : Path) : List (List Char) :=
  (components path).foldl resolveStep []

/-- After lexical resolution `path` is `dir` or lies below it. -/
def lexicallyInside (dir path : Path) : Prop := resolve dir <+: resolve path

instance (dir path : Path) : Decidable (lexicallyInside dir path) := by
  unfold lexicallyInside; exact inferInstance

/-- The accessor keeps `path` inside its store path: whenever the gate accepts `path`, the
real path it yields, once resolved, is the real directory of the owning store path
(`realStoreDir` followed by the name of the store path) or lies below it. -/
def StaysInsideStorePath (store : Store) (path : Path) : Prop :=
  ∀ sp real, store.toStorePath path = .ok sp → store.isValidPath sp = true →
    (toRealPath store path).result = .ok real →
    lexicallyInside (store.realStoreDir ++ sp.drop store.storeDir.length) real

/-- The hashed-shard log path of a base name:
`<logDir>/drvs/<basename[0:2]>/<basename[2:]>`. -/
def hashedLogPath (logDir baseName : List Char) : Path :=
  logDir ++ "/drvs/".toList ++ baseName.take 2 ++ "/".toList ++ baseName.drop 2

/-- The flat log path of a base name: `<logDir>/drvs/<basename>`. -/
def flatLogPath (logDir baseName : List Char) : Path :=
  logDir ++ "/drvs/".toList ++ baseName

/-- The compressed variant of a log path: the path with the suffix `.bz2`. -/
def bz2Of (logPath : Path) : Path := logPath ++ ".bz2".toList

/-- A candidate of the build-log search: a plain log file or a compressed one. -/
inductive Candidate where
  | plain (p : Path)
  | bz2 (p : Path)
  deriving DecidableEq, Repr

/-- The full contents of the file at `p`, when that file exists. -/
def Store.fileContents (store : Store) (p : Path) : Option (List Char) :=
  if store.pathExists p then (store.readFile p).toOption else none

/-- The bzip2 decompression of `data`, when it succeeds. -/
def Store.bunzip2 (store : Store) (data : List Char) : Option (List Char) :=
  (store.decompress "bzip2".toList data).toOption

/-- What a candidate resolves to: a plain candidate resolves when its file exists, to
the contents of the file; a compressed candidate resolves when its file exists and its
contents decompress, to the decompressed text. -/
def Candidate.resolve (store : Store) : Candidate → Option (List Char)
  | .plain p => store.fileContents p
  | .bz2 p => (store.fileContents p).bind store.bunzip2

/-- The candidates of a base name, in search order: hashed plain, hashed compressed,
flat plain, flat compressed. -/
def logCandidates (logDir baseName : List Char) : List Candidate :=
  [Candidate.plain (hashedLogPath logDir baseName),
   Candidate.bz2 (bz2Of (hashedLogPath logDir baseName)),
   Candidate.plain (flatLogPath logDir baseName),
   Candidate.bz2 (bz2Of (flatLogPath logDir baseName))]

/-- The file of a candidate. -/
def Candidate.path : Candidate → Path
  | .plain p => p
  | .bz2 p => p

/-- The paths of the candidate files of a base name. -/
def candidatePaths (logDir baseName : List Char) : List Path :=
  (logCandidates logDir baseName).map Candidate.path

/-- The reference search: the result of the first candidate that resolves, absent when
none does. -/
def referenceSearch (store : Store) (candidates : List Candidate) : Option (List Char) :=
  candidates.findSome? (Candidate.resolve store)

/-- Every file that exists can be read. -/
def Store.ReadableFiles (store : Store) : Prop :=
  ∀ p, store.pathExists p = true → ∃ c, store.readFile p = .ok c

/-- The codec fails only with an exception derived from `Error`. -/
def Store.CodecFailsWithError (store : Store) : Prop :=
  ∀ method data e, store.decompress method data = .error e → e.isError = true

/-- The compressed file at `q` cannot be read: `readFile` fails with an `Error`. -/
def Store.FailsToRead (store : Store) (q : Path) : Prop :=
  ∃ e, store.readFile q = .error e ∧ e.isError = true

/-- The compressed file at `q` is corrupt: it can be read and `decompress("bzip2", ...)`
fails on its contents with an `Error`. -/
def Store.FailsToDecompress (store : Store) (q : Path) : Prop :=
  ∃ data e, store.readFile q = .ok data ∧
    store.decompress "bzip2".toList data = .error e ∧ e.isError = true

/-- One iteration of the loop of `getBuildLog` on the log path `p`, case by case: its
result and the calls it makes. -/
def tierOutcome (store : Store) (p : Path) : Outcome (Option (List Char)) :=
  if store.pathExists p then
    ⟨(store.readFile p).map some, [Call.pathExists p, Call.readFile p]⟩
  else if store.pathExists (bz2Of p) then
    match store.readFile (bz2Of p) with
    | .error e =>
      ⟨if e.isError then .ok none else .error e,
        [Call.pathExists p, Call.pathExists (bz2Of p), Call.readFile (bz2Of p)]⟩
    | .ok data =>
      match store.decompress "bzip2".toList data with
      | .ok text =>
        ⟨.ok (some text), [Call.pathExists p, Call.pathExists (bz2Of p),
          Call.readFile (bz2Of p), Call.decompress "bzip2".toList data]⟩
      | .error e =>
        ⟨if e.isError then .ok none else .error e,
          [Call.pathExists p, Call.pathExists (bz2Of p),
            Call.readFile (bz2Of p), Call.decompress "bzip2".toList data]⟩
  else ⟨.ok none, [Call.pathExists p, Call.pathExists (bz2Of p)]⟩

/-- A stub store for the build-log search. The derivation `/nix/store/abcdef.drv` has a
hashed plain log and a flat compressed log; `/nix/store/out1-hello` was built by it,
`/nix/store/out2-src` has no recorded deriver. -/
def buildLogStore : Store :=
  stubStore
    ["/nix/store/abcdef.drv".toList, "/nix/store/out1-hello".toList,
     "/nix/store/out2-src".toList]
    [("/nix/store/out1-hello".toList, "/nix/store/abcdef.drv".toList)]
    [("/var/log/nix/drvs/ab/cdef.drv".toList, "hashed log".toList),
     ("/var/log/nix/drvs/abcdef.drv.bz2".toList, "BZflat log".toList)]

/-- A stub store whose hashed compressed log of `/nix/store/abcdef.drv` is corrupt and
whose flat compressed log is sound. -/
def corruptHashedStore : Store :=
  stubStore ["/nix/store/abcdef.drv".toList] []
    [("/var/log/nix/drvs/ab/cdef.drv.bz2".toList, "garbage".toList),
     ("/var/log/nix/drvs/abcdef.drv.bz2".toList, "BZflat log".toList)]

/-- A stub store in which both compressed logs of `/nix/store/abcdef.drv` are corrupt. -/
def corruptLogsStore : Store :=
  stubStore ["/nix/store/abcdef.drv".toList] []
    [("/var/log/nix/drvs/ab/cdef.drv.bz2".toList, "garbage".toList),
     ("/var/log/nix/drvs/abcdef.drv.bz2".toList, "rubbish".toList)]

/-- What `stat` makes of the status `fi` that `lstat` reports for the real path of
`path`, case by case. -/
def statResult (path : Path) (fi : FileInfo) : Except Exn Stat :=
  if fi.is_missing then .ok ⟨AccessorType.tMissing, 0, false⟩
  else if fi.type = FileType.regular ∨ fi.type = FileType.symlink ∨
      fi.type = FileType.directory then
    .ok ⟨if fi.is_regular then AccessorType.tRegular
         else if fi.is_symlink then AccessorType.tSymlink
         else AccessorType.tDirectory,
         fi.size,
         fi.is_regular && fi.is_executable⟩
  else .error (Exn.error
    ("file \x27".toList ++ path ++ "\x27 has unsupported type".toList))

/-- The status of an entry that is not on disk. -/
def missingInfo : FileInfo := ⟨true, FileType.unknown, false, false, 0, false⟩

/-- A stub store over `/nix/store`, kept on disk under `/mnt/real`, whose disk is given
by the status `lstat` reports for each entry and by the listing of each directory. -/
def entryStore (valid : List Path) (entries : List (Path × FileInfo))
    (listings : List (Path × List DirEntry)) : Store :=
  { stubStore valid [] [] with
    lstat := fun p =>
      match entries.lookup p with
      | some fi => .ok fi
      | none => .ok missingInfo
    readDirectory := fun p =>
      match listings.lookup p with
      | some l => .ok l
      | none => .error (Exn.sysError "not a directory".toList) }

/-- A stub store with the valid store path `/nix/store/abc-foo`: an executable regular
file, a directory listed with a repeated name, a symlink and a character device. -/
def statStore : Store :=
  entryStore ["/nix/store/abc-foo".toList]
    [("/mnt/real/abc-foo/bin/sh".toList, ⟨false, FileType.regular, true, false, 120, true⟩),
     ("/mnt/real/abc-foo/lib".toList, ⟨false, FileType.directory, false, false, 4096, true⟩),
     ("/mnt/real/abc-foo/link".toList, ⟨false, FileType.symlink, false, true, 11, true⟩),
     ("/mnt/real/abc-foo/tty".toList, ⟨false, FileType.character, false, false, 0, false⟩)]
    [("/mnt/real/abc-foo/lib".toList,
      [⟨"libz.so".toList⟩, ⟨"liba.so".toList⟩, ⟨"libz.so".toList⟩])]

/-- A stub store like `stubStore` in which reading one of the files in `unreadable`
fails with a `SysError`. -/
def unreadableStore (valid : List Path) (files : List (Path × List Char))
    (unreadable : List Path) : Store :=
  { stubStore valid [] files with
    readFile := fun p =>
      if p ∈ unreadable then .error (Exn.sysError "Permission denied".toList)
      else
        match files.lookup p with
        | some c => .ok c
        | none => .error (Exn.sysError "cannot open file".toList) }

/-- A stub store in which the hashed compressed log of `/nix/store/abcdef.drv` exists
and cannot be read, and the flat plain log is sound. -/
def unreadableBz2Store : Store :=
  unreadableStore ["/nix/store/abcdef.drv".toList]
    [("/var/log/nix/drvs/ab/cdef.drv.bz2".toList, "BZhashed log".toList),
     ("/var/log/nix/drvs/abcdef.drv".toList, "flat log".toList)]
    ["/var/log/nix/drvs/ab/cdef.drv.bz2".toList]

/-- A stub store in which the hashed plain log of `/nix/store/abcdef.drv` exists and
cannot be read, and the flat plain log is sound. -/
def unreadablePlainStore : Store :=
  unreadableStore ["/nix/store/abcdef.drv".toList]
    [("/var/log/nix/drvs/ab/cdef.drv".toList, "hashed log".toList),
     ("/var/log/nix/drvs/abcdef.drv".toList, "flat log".toList)]
    ["/var/log/nix/drvs/ab/cdef.drv".toList]

/-- A stub store whose codec throws `std::out_of_range`, an exception that does not
derive from `Error`; the hashed compressed log of `/nix/store/abcdef.drv` exists and the
flat plain log is sound. -/
def throwingCodecStore : Store :=
  { stubStore ["/nix/store/abcdef.drv".toList] []
      [("/var/log/nix/drvs/ab/cdef.drv.bz2".toList, "BZhashed log".toList),
       ("/var/log/nix/drvs/abcdef.drv".toList, "flat log".toList)] with
    decompress := fun _ _ => .error Exn.outOfRange }

/-- A stub store whose validity database holds `/nix`, a path shorter than the store
directory. -/
def shortPathStore : Store := stubStore ["/nix".toList] [] []

/-! ## The `Outcome` monad -/

@[simp] theorem Outcome.bind_eq {α β : Type} (x : Outcome α) (f : α → Outcome β) :
    x >>= f = Outcome.andThen x f := rfl

@[simp] theorem Outcome.pure_eq {α : Type} (a : α) :
    (pure a : Outcome α) = Outcome.ret a := rfl

@[simp] theorem Outcome.throw_eq {α : Type} (e : Exn) :
    (throw e : Outcome α) = Outcome.raise e := rfl

@[simp] theorem Outcome.tryCatch_eq {α : Type} (x : Outcome α) (h : Exn → Outcome α) :
    tryCatch x h = Outcome.handle x h := rfl

theorem Outcome.ret_andThen {α β : Type} (a : α) (f : α → Outcome β) :
    (Outcome.ret a).andThen f = f a := by
  simp [Outcome.andThen, Outcome.ret]

theorem Outcome.andThen_result {α β : Type} (x : Outcome α) (f : α → Outcome β) :
    (x.andThen f).result =
      match x.result with
      | .error e => .error e
      | .ok a => (f a).result := by
  unfold Outcome.andThen; cases x.result <;> rfl

theorem Outcome.andThen_calls {α β : Type} (x : Outcome α) (f : α → Outcome β) :
    (x.andThen f).calls =
      match x.result with
      | .error _ => x.calls
      | .ok a => x.calls ++ (f a).calls := by
  unfold Outcome.andThen; cases x.result <;> rfl

/-! ## The stub store -/

theorem stubStore_readableFiles (valid : List Path) (derivers : List (Path × Path))
    (files : List (Path × List Char)) : (stubStore valid derivers files).ReadableFiles := by
  intro p hp
  simp only [stubStore] at hp ⊢
  cases h : List.lookup p files with
  | none => rw [h] at hp; simp at hp
  | some c => exact ⟨c, rfl⟩

theorem stubDecompress_error (method data : List Char) (e : Exn)
    (h : stubDecompress method data = .error e) : e.isError = true := by
  unfold stubDecompress at h
  split at h
  · split at h
    · cases h
    · cases h; rfl
  · cases h; rfl

theorem stubStore_codecFailsWithError (valid : List Path) (derivers : List (Path × Path))
    (files : List (Path × List Char)) :
    (stubStore valid derivers files).CodecFailsWithError :=
  fun method data e h => stubDecompress_error method data e h

/-! ## The validity gate and the path translation -/

/-- The gate rejects: `toRealPath` on a path whose owning store path is not valid throws
`InvalidPath` after the single call `isValidPath`. -/
theorem toRealPath_invalid (store : Store) (path sp : Path)
    (hsp : store.toStorePath path = .ok sp) (hinv : store.isValidPath sp = false) :
    toRealPath store path =
      ⟨.error (Exn.invalidPath
          ("path \x27".toList ++ sp ++ "\x27 is not a valid store path".toList)),
        [Call.isValidPath sp]⟩ := by
  simp [toRealPath, Outcome.andThen, Outcome.lift, Outcome.call, Outcome.raise, hsp, hinv]

/-- The gate accepts: `toRealPath` on a path with the store directory as a prefix and a
valid owning store path returns the real root followed by the rest of the path. -/
theorem toRealPath_valid (store : Store) (path sp : Path)
    (hlen : store.storeDir.length ≤ path.length)
    (hsp : store.toStorePath path = .ok sp) (hval : store.isValidPath sp = true) :
    toRealPath store path =
      ⟨.ok (store.realStoreDir ++ path.drop store.storeDir.length),
        [Call.isValidPath sp]⟩ := by
  have h : ¬ path.length < store.storeDir.length := Nat.not_lt.mpr hlen
  simp [toRealPath, Outcome.andThen, Outcome.lift, Outcome.call, Outcome.ret, substrFrom,
    hsp, hval, h]

/-- C1: when the owning store path `toStorePath path` is not valid, each of `stat`,
`readDirectory`, `readFile` and `readLink` throws `InvalidPath`, and the only collaborator
call of the run is the validity query: no filesystem operation is invoked. -/
theorem accessor_invalid_path_no_filesystem_access (store : Store) (path sp : Path)
    (hsp : store.toStorePath path = .ok sp) (hinv : store.isValidPath sp = false) :
    ((stat store path).result = .error (Exn.invalidPath
        ("path \x27".toList ++ sp ++ "\x27 is not a valid store path".toList)) ∧
     (readDirectory store path).result = .error (Exn.invalidPath
        ("path \x27".toList ++ sp ++ "\x27 is not a valid store path".toList)) ∧
     (readFile store path).result = .error (Exn.invalidPath
        ("path \x27".toList ++ sp ++ "\x27 is not a valid store path".toList)) ∧
     (readLink store path).result = .error (Exn.invalidPath
        ("path \x27".toList ++ sp ++ "\x27 is not a valid store path".toList))) ∧
    ((stat store path).calls = [Call.isValidPath sp] ∧
     (readDirectory store path).calls = [Call.isValidPath sp] ∧
     (readFile store path).calls = [Call.isValidPath sp] ∧
     (readLink store path).calls = [Call.isValidPath sp]) ∧
    (∀ c, (c ∈ (stat store path).calls ∨ c ∈ (readDirectory store path).calls ∨
        c ∈ (readFile store path).calls ∨ c ∈ (readLink store path).calls) →
      c.isFilesystem = false) := by
  have h := toRealPath_invalid store path sp hsp hinv
  have h1 : stat store path = ⟨.error (Exn.invalidPath
      ("path \x27".toList ++ sp ++ "\x27 is not a valid store path".toList)),
      [Call.isValidPath sp]⟩ := by
    simp only [stat, Outcome.bind_eq, Outcome.andThen, h]
  have h2 : readDirectory store path = ⟨.error (Exn.invalidPath
      ("path \x27".toList ++ sp ++ "\x27 is not a valid store path".toList)),
      [Call.isValidPath sp]⟩ := by
    simp only [readDirectory, Outcome.bind_eq, Outcome.andThen, h]
  have h3 : readFile store path = ⟨.error (Exn.invalidPath
      ("path \x27".toList ++ sp ++ "\x27 is not a valid store path".toList)),
      [Call.isValidPath sp]⟩ := by
    simp only [readFile, Outcome.bind_eq, Outcome.andThen, h]
  have h4 : readLink store path = ⟨.error (Exn.invalidPath
      ("path \x27".toList ++ sp ++ "\x27 is not a valid store path".toList)),
      [Call.isValidPath sp]⟩ := by
    simp only [readLink, Outcome.bind_eq, Outcome.andThen, h]
  rw [h1, h2, h3, h4]
  refine ⟨⟨rfl, rfl, rfl, rfl⟩, ⟨rfl, rfl, rfl, rfl⟩, ?_⟩
  intro c hc
  simp only [or_self, List.mem_singleton] at hc
  subst hc
  rfl

/-- Witness of C1: `/nix/store/xyz-bar` is not valid in the stub store. -/
theorem accessor_invalid_path_no_filesystem_access_witness :
    accessorStore.toStorePath "/nix/store/xyz-bar/bin/sh".toList
        = .ok "/nix/store/xyz-bar".toList ∧
    accessorStore.isValidPath "/nix/store/xyz-bar".toList = false ∧
    (stat accessorStore "/nix/store/xyz-bar/bin/sh".toList).calls
        = [Call.isValidPath "/nix/store/xyz-bar".toList] ∧
    (readFile accessorStore "/nix/store/xyz-bar/bin/sh".toList).result
        = .error (Exn.invalidPath
            "path \x27/nix/store/xyz-bar\x27 is not a valid store path".toList) :=
  ⟨by decide, by decide,
    (accessor_invalid_path_no_filesystem_access accessorStore
      "/nix/store/xyz-bar/bin/sh".toList "/nix/store/xyz-bar".toList
      (by decide) (by decide)).2.1.1,
    by decide⟩

/-- C2: for a virtual path `p` that starts with the store directory `d` and whose owning
store path is valid, `toRealPath` returns the real root `r` followed by `p[len(d):]`; that
suffix is the rest of `p` after `d`, unchanged, so the result has length
`len(r) + len(p) - len(d)`. -/
theorem toRealPath_eq_realStoreDir_append_suffix (store : Store) (path sp : Path)
    (hpre : store.storeDir <+: path)
    (hsp : store.toStorePath path = .ok sp) (hval : store.isValidPath sp = true) :
    (toRealPath store path).result
        = .ok (store.realStoreDir ++ path.drop store.storeDir.length) ∧
    store.storeDir ++ path.drop store.storeDir.length = path ∧
    (∀ suffix, path = store.storeDir ++ suffix →
        (toRealPath store path).result = .ok (store.realStoreDir ++ suffix)) ∧
    (store.realStoreDir ++ path.drop store.storeDir.length).length
        = store.realStoreDir.length + path.length - store.storeDir.length := by
  have hlen : store.storeDir.length ≤ path.length := hpre.length_le
  have h := toRealPath_valid store path sp hlen hsp hval
  obtain ⟨t, ht⟩ := hpre
  have hdrop : path.drop store.storeDir.length = t := by
    rw [← ht]; exact List.drop_left _ _
  refine ⟨by rw [h], ?_, ?_, ?_⟩
  · rw [hdrop, ht]
  · intro suffix hs
    have : suffix = t := List.append_cancel_left (hs.symm.trans ht.symm)
    rw [h, hdrop, this]
  · rw [List.length_append, List.length_drop]
    omega

/-- Witness of C2: a suffix with non-ASCII and special characters is copied unchanged. -/
theorem toRealPath_eq_realStoreDir_append_suffix_witness :
    accessorStore.storeDir <+: "/nix/store/abc-foo/share/doc/ü ñ*?.txt".toList ∧
    (toRealPath accessorStore "/nix/store/abc-foo/share/doc/ü ñ*?.txt".toList).result
        = .ok "/mnt/real/abc-foo/share/doc/ü ñ*?.txt".toList :=
  ⟨by decide,
    (toRealPath_eq_realStoreDir_append_suffix accessorStore
      "/nix/store/abc-foo/share/doc/ü ñ*?.txt".toList "/nix/store/abc-foo".toList
      (by decide) (by decide) (by decide)).1⟩

/-! ## Path traversal -/

theorem splitComponents_append_sep (path : Path) (cur : List Char) :
    splitComponents cur (path ++ ['/']) = splitComponents cur path := by
  induction path generalizing cur with
  | nil => by_cases h : cur = [] <;> simp [splitComponents, h]
  | cons c cs ih =>
    by_cases hc : c = '/' <;> by_cases h : cur = [] <;>
      simp [splitComponents, hc, h, ih]

theorem splitComponents_append_cons_sep (path rest : Path) (cur : List Char) :
    splitComponents cur (path ++ '/' :: rest)
      = splitComponents cur path ++ components rest := by
  induction path generalizing cur with
  | nil => by_cases h : cur = [] <;> simp [splitComponents, components, h]
  | cons c cs ih =>
    by_cases hc : c = '/' <;> by_cases h : cur = [] <;>
      simp [splitComponents, hc, h, ih]

/-- Appending a sub-path that is empty or starts with a separator appends its
components. -/
theorem components_append (dir rest : Path) (hsep : rest = [] ∨ rest.head? = some '/') :
    components (dir ++ rest) = components dir ++ components rest := by
  rcases hsep with h | h
  · subst h; simp [components, splitComponents]
  · cases rest with
    | nil => simp at h
    | cons c cs =>
      simp only [List.head?_cons, Option.some.injEq] at h
      subst h
      exact splitComponents_append_cons_sep dir cs []

theorem prefix_foldl_resolveStep (cs : List (List Char))
    (hno : ∀ c ∈ cs, c ≠ "..".toList) (dir : List (List Char)) :
    dir <+: cs.foldl resolveStep dir := by
  induction cs generalizing dir with
  | nil => exact List.prefix_refl dir
  | cons c cs ih =>
    have hc : c ≠ "..".toList := hno c (List.mem_cons_self c cs)
    have hcs : ∀ x ∈ cs, x ≠ "..".toList := fun x hx => hno x (List.mem_cons_of_mem c hx)
    have hstep : dir <+: resolveStep dir c := by
      unfold resolveStep
      by_cases h1 : c = ".".toList
      · rw [if_pos h1]
      · rw [if_neg h1, if_neg hc]; exact List.prefix_append dir [c]
    exact hstep.trans (ih hcs (resolveStep dir c))

/-- The owning store path computed by `toStorePathSpec` is a prefix of the path, at
least as long as the store directory, and what follows it is empty or starts with a
separator. -/
theorem toStorePathSpec_decomposes (storeDir path : Path)
    (hlen : storeDir.length ≤ path.length) :
    ∃ rest, path = toStorePathSpec storeDir path ++ rest ∧
      (rest = [] ∨ rest.head? = some '/') ∧
      storeDir.length ≤ (toStorePathSpec storeDir path).length := by
  refine ⟨(path.drop (storeDir.length + 1)).dropWhile (fun c => c != '/'), ?_, ?_, ?_⟩
  · unfold toStorePathSpec
    rw [List.append_assoc, List.takeWhile_append_dropWhile, List.take_append_drop]
  · generalize path.drop (storeDir.length + 1) = l
    induction l with
    | nil => left; rfl
    | cons c cs ih =>
      by_cases hc : c = '/'
      · right; subst hc; rfl
      · have : ((c :: cs).dropWhile (fun c => c != '/')) = cs.dropWhile (fun c => c != '/') := by
          simp [List.dropWhile_cons, hc]
        rw [this]; exact ih
  · unfold toStorePathSpec
    rw [List.length_append, List.length_take]
    omega

/-- Counterexample to C3: in the stub store the gate accepts
`/nix/store/abc-foo/../../../etc/passwd` (its owning store path `/nix/store/abc-foo` is
valid), `readFile` hands `/mnt/real/abc-foo/../../../etc/passwd` to the filesystem, and
that path resolves to `/etc/passwd`, outside `/mnt/real/abc-foo`. -/
theorem toRealPath_dotdot_leaves_store_path :
    (readFile accessorStore "/nix/store/abc-foo/../../../etc/passwd".toList).calls
        = [Call.isValidPath "/nix/store/abc-foo".toList,
           Call.readFile "/mnt/real/abc-foo/../../../etc/passwd".toList] ∧
    resolve "/mnt/real/abc-foo/../../../etc/passwd".toList
        = ["etc".toList, "passwd".toList] ∧
    ¬ StaysInsideStorePath accessorStore "/nix/store/abc-foo/../../../etc/passwd".toList := by
  refine ⟨by decide, by decide, ?_⟩
  intro h
  have h1 := h "/nix/store/abc-foo".toList "/mnt/real/abc-foo/../../../etc/passwd".toList
    (by decide) (by decide) (by decide)
  revert h1
  decide

/-- C3, amended: for a virtual path accepted by the gate, made of its owning store path
`sp` followed by a sub-path `rest` (empty or starting with a separator), the real path
is the real directory of `sp` followed by `rest` unchanged; the accessor resolves
nothing. When `rest` has no `..` component the resolved real path stays inside the real
directory of `sp`. -/
theorem toRealPath_stays_inside_without_dotdot (store : Store) (path sp rest : Path)
    (hsp : store.toStorePath path = .ok sp) (hval : store.isValidPath sp = true)
    (hdir : store.storeDir.length ≤ sp.length) (hpath : path = sp ++ rest)
    (hsep : rest = [] ∨ rest.head? = some '/') :
    (toRealPath store path).result
        = .ok ((store.realStoreDir ++ sp.drop store.storeDir.length) ++ rest) ∧
    ((∀ c ∈ components rest, c ≠ "..".toList) → StaysInsideStorePath store path) := by
  have hlen : store.storeDir.length ≤ path.length := by
    rw [hpath, List.length_append]; omega
  have h := toRealPath_valid store path sp hlen hsp hval
  have hdrop : path.drop store.storeDir.length = sp.drop store.storeDir.length ++ rest := by
    rw [hpath]; exact List.drop_append_of_le_length hdir
  have hreal : (toRealPath store path).result
      = .ok ((store.realStoreDir ++ sp.drop store.storeDir.length) ++ rest) := by
    rw [h, hdrop, List.append_assoc]
  refine ⟨hreal, ?_⟩
  intro hno sp2 real hsp2 _ hres
  have e1 : sp2 = sp := by
    rw [hsp] at hsp2; exact (Except.ok.inj hsp2).symm
  have e2 : real = (store.realStoreDir ++ sp.drop store.storeDir.length) ++ rest := by
    rw [hreal] at hres; exact (Except.ok.inj hres).symm
  subst e1 e2
  unfold lexicallyInside resolve
  rw [components_append _ rest hsep, List.foldl_append]
  exact prefix_foldl_resolveStep (components rest) hno _

/-- Witness of C3, amended: a sub-path with a `.` component and no `..` component. -/
theorem toRealPath_stays_inside_without_dotdot_witness :
    accessorStore.toStorePath "/nix/store/abc-foo/./share/doc".toList
        = .ok "/nix/store/abc-foo".toList ∧
    accessorStore.isValidPath "/nix/store/abc-foo".toList = true ∧
    (∀ c ∈ components "/./share/doc".toList, c ≠ "..".toList) ∧
    (toRealPath accessorStore "/nix/store/abc-foo/./share/doc".toList).result
        = .ok "/mnt/real/abc-foo/./share/doc".toList ∧
    StaysInsideStorePath accessorStore "/nix/store/abc-foo/./share/doc".toList :=
  ⟨by decide, by decide, by decide,
    (toRealPath_stays_inside_without_dotdot accessorStore
      "/nix/store/abc-foo/./share/doc".toList "/nix/store/abc-foo".toList
      "/./share/doc".toList (by decide) (by decide) (by decide) (by decide)
      (by decide)).1,
    (toRealPath_stays_inside_without_dotdot accessorStore
      "/nix/store/abc-foo/./share/doc".toList "/nix/store/abc-foo".toList
      "/./share/doc".toList (by decide) (by decide) (by decide) (by decide)
      (by decide)).2 (by decide)⟩

/-! ## The build-log search -/

/-- The log path of the first iteration is the hashed-shard path, for a base name of at
least two characters. -/
theorem logPathOf_zero (store : Store) (b : List Char) (hb : 2 ≤ b.length) :
    logPathOf store b 0 = Outcome.ret (hashedLogPath store.logDir b) := by
  have h : ¬ b.length < 2 := Nat.not_lt.mpr hb
  simp [logPathOf, substr, substrFrom, Outcome.lift, Outcome.andThen, Outcome.ret, h,
    hashedLogPath, drvsLogDir]

/-- The log path of a later iteration is the flat path. -/
theorem logPathOf_succ (store : Store) (b : List Char) (j : Nat) :
    logPathOf store b (j + 1) = Outcome.ret (flatLogPath store.logDir b) := by
  simp [logPathOf, Outcome.ret, flatLogPath, drvsLogDir]

/-- The body of the loop on the log path `p` does what `tierOutcome` lists. -/
theorem getBuildLogTier_eq (store : Store) (b : List Char) (j : Nat) (p : Path)
    (hp : logPathOf store b j = Outcome.ret p) :
    getBuildLogTier store b j = tierOutcome store p := by
  have hq : ∀ l : Path, l ++ ".bz2".toList = bz2Of l := fun _ => rfl
  unfold getBuildLogTier tierOutcome
  rw [hp]
  simp only [hq, Outcome.bind_eq, Outcome.pure_eq, Outcome.throw_eq, Outcome.tryCatch_eq,
    Outcome.andThen, Outcome.handle, Outcome.ret, Outcome.raise, Outcome.call]
  generalize bz2Of p = q
  generalize "bzip2".toList = m
  cases h1 : store.pathExists p
  · cases h2 : store.pathExists q
    · simp
    · cases h3 : store.readFile q with
      | error e => cases h : e.isError <;> simp [h]
      | ok data =>
        cases h4 : store.decompress m data with
        | error e => cases h : e.isError <;> simp [h, h4]
        | ok text => simp [h4]
  · cases h3 : store.readFile p <;> simp [Except.map]

theorem getBuildLogTier_zero (store : Store) (b : List Char) (hb : 2 ≤ b.length) :
    getBuildLogTier store b 0 = tierOutcome store (hashedLogPath store.logDir b) :=
  getBuildLogTier_eq store b 0 _ (logPathOf_zero store b hb)

theorem getBuildLogTier_one (store : Store) (b : List Char) :
    getBuildLogTier store b 1 = tierOutcome store (flatLogPath store.logDir b) :=
  getBuildLogTier_eq store b 1 _ (logPathOf_succ store b 0)

/-- The two iterations of the loop, spelled out. -/
theorem getBuildLogLoop_eq (store : Store) (b : List Char) (hb : 2 ≤ b.length) :
    getBuildLogLoop store b 0 2 =
      (tierOutcome store (hashedLogPath store.logDir b)).andThen fun r =>
        match r with
        | some log => Outcome.ret (some log)
        | none => (tierOutcome store (flatLogPath store.logDir b)).andThen fun r =>
          match r with
          | some log => Outcome.ret (some log)
          | none => Outcome.ret none := by
  simp only [getBuildLogLoop, Outcome.bind_eq, Outcome.pure_eq, getBuildLogTier_zero store b hb,
    getBuildLogTier_one store b]

theorem getBuildLogDrv_of_derivation (store : Store) (path : Path)
    (hsp : store.assertStorePath path = .ok ()) (hdrv : store.isDerivation path = true) :
    getBuildLogDrv store path = Outcome.ret (some path) := by
  simp [getBuildLogDrv, Outcome.lift, Outcome.andThen, Outcome.ret, hsp, hdrv]

theorem getBuildLog_of_derivation (store : Store) (path : Path)
    (hsp : store.assertStorePath path = .ok ()) (hdrv : store.isDerivation path = true) :
    getBuildLog store path = getBuildLogLoop store (store.baseNameOf path) 0 2 := by
  unfold getBuildLog
  rw [getBuildLogDrv_of_derivation store path hsp hdrv, Outcome.bind_eq, Outcome.ret_andThen]

/-- When its plain file exists an iteration probes and reads that file, nothing else. -/
theorem tierOutcome_plain (store : Store) (p : Path) (h : store.pathExists p = true) :
    tierOutcome store p
      = ⟨(store.readFile p).map some, [Call.pathExists p, Call.readFile p]⟩ := by
  simp [tierOutcome, h]

/-- In a store whose files can be read and whose codec fails with an `Error`, an
iteration yields the plain candidate if it resolves, else the compressed one. -/
theorem tierOutcome_result (store : Store) (p : Path)
    (hread : store.ReadableFiles) (hdec : store.CodecFailsWithError) :
    (tierOutcome store p).result
      = .ok (referenceSearch store [Candidate.plain p, Candidate.bz2 (bz2Of p)]) := by
  unfold tierOutcome referenceSearch
  simp only [List.findSome?, Candidate.resolve, Store.fileContents, Store.bunzip2]
  generalize "bzip2".toList = m
  cases h1 : store.pathExists p
  · cases h2 : store.pathExists (bz2Of p)
    · simp
    · obtain ⟨data, h3⟩ := hread _ h2
      cases h4 : store.decompress m data with
      | error e =>
        have he := hdec _ _ _ h4
        simp [h3, h4, he, Except.toOption]
      | ok text => simp [h3, h4, Except.toOption]
  · obtain ⟨c, h3⟩ := hread _ h1
    simp [h3, Except.toOption, Except.map]

theorem referenceSearch_logCandidates (store : Store) (logDir b : List Char) :
    referenceSearch store (logCandidates logDir b) =
      match referenceSearch store
          [Candidate.plain (hashedLogPath logDir b),
           Candidate.bz2 (bz2Of (hashedLogPath logDir b))] with
      | some log => some log
      | none => referenceSearch store
          [Candidate.plain (flatLogPath logDir b), Candidate.bz2 (bz2Of (flatLogPath logDir b))] := by
  unfold referenceSearch logCandidates
  simp only [List.findSome?]
  cases Candidate.resolve store (Candidate.plain (hashedLogPath logDir b)) with
  | some _ => rfl
  | none =>
    cases Candidate.resolve store (Candidate.bz2 (bz2Of (hashedLogPath logDir b))) with
    | some _ => rfl
    | none => rfl

theorem getBuildLogLoop_result_ref (store : Store) (b : List Char) (hb : 2 ≤ b.length)
    (hread : store.ReadableFiles) (hdec : store.CodecFailsWithError) :
    (getBuildLogLoop store b 0 2).result
      = .ok (referenceSearch store (logCandidates store.logDir b)) := by
  rw [getBuildLogLoop_eq store _ hb, referenceSearch_logCandidates]
  have t0 := tierOutcome_result store (hashedLogPath store.logDir b) hread hdec
  have t1 := tierOutcome_result store (flatLogPath store.logDir b) hread hdec
  simp only [Outcome.andThen_result, t0]
  cases h : referenceSearch store [Candidate.plain (hashedLogPath store.logDir b),
      Candidate.bz2 (bz2Of (hashedLogPath store.logDir b))] with
  | some log => rfl
  | none =>
    simp only [Outcome.andThen_result, t1]
    cases referenceSearch store [Candidate.plain (flatLogPath store.logDir b),
      Candidate.bz2 (bz2Of (flatLogPath store.logDir b))] <;> rfl

/-- C4: for a derivation store path (with a base name of at least two characters, as
every store path has), in a store whose existing files can be read and whose codec fails
with an `Error`, `getBuildLog` returns what the reference search returns on the candidates
hashed plain, hashed `.bz2`, flat plain, flat `.bz2`: the result of the first candidate
that resolves. In each tier, when the plain file exists the iteration probes and reads
that file only: the `.bz2` variant is not consulted. -/
theorem getBuildLog_eq_referenceSearch (store : Store) (path : Path)
    (hsp : store.assertStorePath path = .ok ()) (hdrv : store.isDerivation path = true)
    (hb : 2 ≤ (store.baseNameOf path).length)
    (hread : store.ReadableFiles) (hdec : store.CodecFailsWithError) :
    (getBuildLog store path).result
      = .ok (referenceSearch store (logCandidates store.logDir (store.baseNameOf path))) ∧
    (store.pathExists (hashedLogPath store.logDir (store.baseNameOf path)) = true →
      (getBuildLogTier store (store.baseNameOf path) 0).calls
        = [Call.pathExists (hashedLogPath store.logDir (store.baseNameOf path)),
           Call.readFile (hashedLogPath store.logDir (store.baseNameOf path))]) ∧
    (store.pathExists (flatLogPath store.logDir (store.baseNameOf path)) = true →
      (getBuildLogTier store (store.baseNameOf path) 1).calls
        = [Call.pathExists (flatLogPath store.logDir (store.baseNameOf path)),
           Call.readFile (flatLogPath store.logDir (store.baseNameOf path))]) := by
  refine ⟨?_, ?_, ?_⟩
  · rw [getBuildLog_of_derivation store path hsp hdrv]
    exact getBuildLogLoop_result_ref store _ hb hread hdec
  · intro h
    rw [getBuildLogTier_zero store _ hb, tierOutcome_plain store _ h]
  · intro h
    rw [getBuildLogTier_one store _, tierOutcome_plain store _ h]

/-- Witness of C4: in the stub store the hashed plain log of `/nix/store/abcdef.drv`
is the first candidate that resolves. -/
theorem getBuildLog_eq_referenceSearch_witness :
    buildLogStore.assertStorePath "/nix/store/abcdef.drv".toList = .ok () ∧
    buildLogStore.isDerivation "/nix/store/abcdef.drv".toList = true ∧
    2 ≤ (buildLogStore.baseNameOf "/nix/store/abcdef.drv".toList).length ∧
    referenceSearch buildLogStore
        (logCandidates buildLogStore.logDir
          (buildLogStore.baseNameOf "/nix/store/abcdef.drv".toList))
      = some "hashed log".toList ∧
    (getBuildLog buildLogStore "/nix/store/abcdef.drv".toList).result
      = .ok (referenceSearch buildLogStore
          (logCandidates buildLogStore.logDir
            (buildLogStore.baseNameOf "/nix/store/abcdef.drv".toList))) :=
  ⟨by decide, by decide, by decide, by decide,
    (getBuildLog_eq_referenceSearch buildLogStore "/nix/store/abcdef.drv".toList
      (by decide) (by decide) (by decide)
      (stubStore_readableFiles _ _ _) (stubStore_codecFailsWithError _ _ _)).1⟩

/-- C5: for a derivation store path whose hashed plain log file
`<logDir>/drvs/<basename[0:2]>/<basename[2:]>` exists, `getBuildLog` returns the contents
of that file, after probing and reading that file only; no other candidate is looked
at, so their presence and contents do not matter. -/
theorem getBuildLog_hashed_plain_wins (store : Store) (path : Path) (contents : List Char)
    (hsp : store.assertStorePath path = .ok ()) (hdrv : store.isDerivation path = true)
    (hb : 2 ≤ (store.baseNameOf path).length)
    (hex : store.pathExists (hashedLogPath store.logDir (store.baseNameOf path)) = true)
    (hc : store.readFile (hashedLogPath store.logDir (store.baseNameOf path))
      = .ok contents) :
    getBuildLog store path =
      ⟨.ok (some contents),
        [Call.pathExists (hashedLogPath store.logDir (store.baseNameOf path)),
         Call.readFile (hashedLogPath store.logDir (store.baseNameOf path))]⟩ := by
  rw [getBuildLog_of_derivation store path hsp hdrv, getBuildLogLoop_eq store _ hb,
    tierOutcome_plain store _ hex, hc]
  rfl

/-- Witness of C5: both `/var/log/nix/drvs/ab/cdef.drv` and
`/var/log/nix/drvs/abcdef.drv.bz2` are present; the hashed plain file wins. -/
theorem getBuildLog_hashed_plain_wins_witness :
    buildLogStore.pathExists "/var/log/nix/drvs/ab/cdef.drv".toList = true ∧
    buildLogStore.pathExists "/var/log/nix/drvs/abcdef.drv.bz2".toList = true ∧
    getBuildLog buildLogStore "/nix/store/abcdef.drv".toList =
      ⟨.ok (some "hashed log".toList),
        [Call.pathExists "/var/log/nix/drvs/ab/cdef.drv".toList,
         Call.readFile "/var/log/nix/drvs/ab/cdef.drv".toList]⟩ :=
  ⟨by decide, by decide,
    getBuildLog_hashed_plain_wins buildLogStore "/nix/store/abcdef.drv".toList
      "hashed log".toList (by decide) (by decide) (by decide) (by decide) (by decide)⟩


theorem length_hashedLogPath (logDir b : List Char) (hb : 2 ≤ b.length) :
    (hashedLogPath logDir b).length = logDir.length + b.length + 7 := by
  simp [hashedLogPath, List.length_take, List.length_drop]
  omega

theorem length_flatLogPath (logDir b : List Char) :
    (flatLogPath logDir b).length = logDir.length + b.length + 6 := by
  simp [flatLogPath]
  omega

theorem length_bz2Of (p : Path) : (bz2Of p).length = p.length + 4 := by
  simp [bz2Of]

/-- An iteration reads a file only after finding that it exists: the plain file, or the
compressed one when the plain file is absent. -/
theorem mem_tierOutcome_calls_readFile (store : Store) (p q : Path)
    (h : Call.readFile q ∈ (tierOutcome store p).calls) :
    (q = p ∧ store.pathExists p = true) ∨
    (q = bz2Of p ∧ store.pathExists p = false ∧ store.pathExists (bz2Of p) = true) := by
  unfold tierOutcome at h
  generalize "bzip2".toList = m at h
  cases h1 : store.pathExists p
  · cases h2 : store.pathExists (bz2Of p)
    · simp [h1, h2] at h
    · right
      refine ⟨?_, rfl, rfl⟩
      cases h3 : store.readFile (bz2Of p) with
      | error e => simpa [h1, h2, h3] using h
      | ok data =>
        cases h4 : store.decompress m data <;> simpa [h1, h2, h3, h4] using h
  · left
    refine ⟨?_, rfl⟩
    simpa [h1] using h

/-- An iteration falls through to the next one only when its plain file is absent and
its compressed file is absent or unusable. -/
theorem tierOutcome_result_none (store : Store) (p : Path)
    (h : (tierOutcome store p).result = .ok none) :
    store.pathExists p = false ∧
    (store.pathExists (bz2Of p) = false ∨ store.FailsToRead (bz2Of p) ∨
      store.FailsToDecompress (bz2Of p)) := by
  unfold tierOutcome at h
  unfold Store.FailsToRead Store.FailsToDecompress
  generalize "bzip2".toList = m at h ⊢
  cases h1 : store.pathExists p
  · refine ⟨rfl, ?_⟩
    cases h2 : store.pathExists (bz2Of p)
    · left; rfl
    · right
      cases h3 : store.readFile (bz2Of p) with
      | error e =>
        left
        cases he : e.isError
        · simp [h1, h2, h3, he] at h
        · exact ⟨e, rfl, he⟩
      | ok data =>
        right
        cases h4 : store.decompress m data with
        | error e =>
          cases he : e.isError
          · simp [h1, h2, h3, h4, he] at h
          · exact ⟨data, e, rfl, h4, he⟩
        | ok text => simp [h1, h2, h3, h4] at h
  · cases h3 : store.readFile p <;> simp [h1, h3, Except.map] at h

/-- An iteration whose plain file is absent and whose compressed file is absent or
corrupt falls through without an error. -/
theorem tierOutcome_result_of_unresolved (store : Store) (p : Path)
    (h1 : store.pathExists p = false)
    (h2 : store.pathExists (bz2Of p) = false ∨ store.FailsToDecompress (bz2Of p)) :
    (tierOutcome store p).result = .ok none := by
  unfold tierOutcome
  unfold Store.FailsToDecompress at h2
  generalize "bzip2".toList = m at h2 ⊢
  cases h : store.pathExists (bz2Of p)
  · simp [h1, h]
  · rcases h2 with h2 | ⟨data, e, h3, h4, he⟩
    · rw [h] at h2; cases h2
    · simp [h1, h, h3, h4, he]


/-- Once the first iteration has fallen through, the search yields what the second
iteration yields, after the calls of both. -/
theorem getBuildLogLoop_of_fallthrough (store : Store) (b : List Char)
    (hb : 2 ≤ b.length)
    (h0 : (tierOutcome store (hashedLogPath store.logDir b)).result = .ok none) :
    getBuildLogLoop store b 0 2
      = ⟨(tierOutcome store (flatLogPath store.logDir b)).result,
          (tierOutcome store (hashedLogPath store.logDir b)).calls ++
            (tierOutcome store (flatLogPath store.logDir b)).calls⟩ := by
  rw [getBuildLogLoop_eq store b hb]
  unfold Outcome.andThen
  simp only [h0]
  cases h : (tierOutcome store (flatLogPath store.logDir b)).result with
  | error e => simp
  | ok r => cases r <;> simp [Outcome.ret]

theorem getBuildLogLoop_result_of_fallthrough (store : Store) (b : List Char)
    (hb : 2 ≤ b.length)
    (h0 : (tierOutcome store (hashedLogPath store.logDir b)).result = .ok none) :
    (getBuildLogLoop store b 0 2).result
      = (tierOutcome store (flatLogPath store.logDir b)).result := by
  rw [getBuildLogLoop_of_fallthrough store b hb h0]

/-- A file read by the search is read by one of its two iterations, the second one
running only when the first has fallen through. -/
theorem mem_getBuildLogLoop_calls (store : Store) (b : List Char) (hb : 2 ≤ b.length)
    (c : Call) (h : c ∈ (getBuildLogLoop store b 0 2).calls) :
    c ∈ (tierOutcome store (hashedLogPath store.logDir b)).calls ∨
    ((tierOutcome store (hashedLogPath store.logDir b)).result = .ok none ∧
      c ∈ (tierOutcome store (flatLogPath store.logDir b)).calls) := by
  rw [getBuildLogLoop_eq store b hb, Outcome.andThen_calls] at h
  cases h0 : (tierOutcome store (hashedLogPath store.logDir b)).result with
  | error e => left; simpa [h0] using h
  | ok r =>
    cases r with
    | some log => left; simpa [h0, Outcome.ret] using h
    | none =>
      simp only [h0, List.mem_append, Outcome.andThen_calls] at h
      rcases h with h | h
      · left; exact h
      · right
        refine ⟨rfl, ?_⟩
        cases h1 : (tierOutcome store (flatLogPath store.logDir b)).result with
        | error e => simpa [h1] using h
        | ok r => cases r <;> simpa [h1, Outcome.ret] using h

/-- Counterexample to C6: in the stub store whose hashed `.bz2` log is corrupt,
`getBuildLog` reads and returns the decompressed flat `.bz2` log although the hashed
`.bz2` file exists. -/
theorem getBuildLog_flat_bz2_read_while_hashed_bz2_exists :
    getBuildLog corruptHashedStore "/nix/store/abcdef.drv".toList =
      ⟨.ok (some "flat log".toList),
        [Call.pathExists "/var/log/nix/drvs/ab/cdef.drv".toList,
         Call.pathExists "/var/log/nix/drvs/ab/cdef.drv.bz2".toList,
         Call.readFile "/var/log/nix/drvs/ab/cdef.drv.bz2".toList,
         Call.decompress "bzip2".toList "garbage".toList,
         Call.pathExists "/var/log/nix/drvs/abcdef.drv".toList,
         Call.pathExists "/var/log/nix/drvs/abcdef.drv.bz2".toList,
         Call.readFile "/var/log/nix/drvs/abcdef.drv.bz2".toList,
         Call.decompress "bzip2".toList "BZflat log".toList]⟩ ∧
    corruptHashedStore.pathExists "/var/log/nix/drvs/ab/cdef.drv.bz2".toList = true ∧
    ¬ (Call.readFile (bz2Of (flatLogPath corruptHashedStore.logDir
          (corruptHashedStore.baseNameOf "/nix/store/abcdef.drv".toList)))
        ∈ (getBuildLog corruptHashedStore "/nix/store/abcdef.drv".toList).calls →
      corruptHashedStore.pathExists (hashedLogPath corruptHashedStore.logDir
          (corruptHashedStore.baseNameOf "/nix/store/abcdef.drv".toList)) = false ∧
      corruptHashedStore.pathExists (bz2Of (hashedLogPath corruptHashedStore.logDir
          (corruptHashedStore.baseNameOf "/nix/store/abcdef.drv".toList))) = false ∧
      corruptHashedStore.pathExists (flatLogPath corruptHashedStore.logDir
          (corruptHashedStore.baseNameOf "/nix/store/abcdef.drv".toList)) = false) := by
  decide

/-- C6, amended: for a derivation store path, in a store whose existing files can be
read, if `getBuildLog` reads the flat compressed log `<logDir>/drvs/<basename>.bz2`, then
the hashed plain file and the flat plain file are absent, and the hashed `.bz2` file is
absent or corrupt (present, with contents on which decompression fails with an `Error`). -/
theorem getBuildLog_reads_flat_bz2_only_after_fallthrough (store : Store) (path : Path)
    (hsp : store.assertStorePath path = .ok ()) (hdrv : store.isDerivation path = true)
    (hb : 2 ≤ (store.baseNameOf path).length) (hread : store.ReadableFiles)
    (h : Call.readFile (bz2Of (flatLogPath store.logDir (store.baseNameOf path)))
      ∈ (getBuildLog store path).calls) :
    store.pathExists (hashedLogPath store.logDir (store.baseNameOf path)) = false ∧
    (store.pathExists (bz2Of (hashedLogPath store.logDir (store.baseNameOf path))) = false ∨
      store.FailsToDecompress (bz2Of (hashedLogPath store.logDir (store.baseNameOf path)))) ∧
    store.pathExists (flatLogPath store.logDir (store.baseNameOf path)) = false := by
  rw [getBuildLog_of_derivation store path hsp hdrv] at h
  have hl0 := length_hashedLogPath store.logDir (store.baseNameOf path) hb
  have hl1 := length_flatLogPath store.logDir (store.baseNameOf path)
  have hl2 := length_bz2Of (flatLogPath store.logDir (store.baseNameOf path))
  have hl3 := length_bz2Of (hashedLogPath store.logDir (store.baseNameOf path))
  rcases mem_getBuildLogLoop_calls store _ hb _ h with h0 | ⟨h0, h1⟩
  · exfalso
    rcases mem_tierOutcome_calls_readFile store _ _ h0 with ⟨e, _⟩ | ⟨e, _, _⟩
    · have := congrArg List.length e; omega
    · have := congrArg List.length e; omega
  · have hn := tierOutcome_result_none store _ h0
    refine ⟨hn.1, ?_, ?_⟩
    · rcases hn.2 with h2 | ⟨e, h3, _⟩ | h4
      · left; exact h2
      · cases hx : store.pathExists
            (bz2Of (hashedLogPath store.logDir (store.baseNameOf path)))
        · left; rfl
        · obtain ⟨data, hd⟩ := hread _ hx
          rw [hd] at h3; cases h3
      · right; exact h4
    · rcases mem_tierOutcome_calls_readFile store _ _ h1 with ⟨e, _⟩ | ⟨_, h5, _⟩
      · exfalso; have := congrArg List.length e; omega
      · exact h5

/-- Witness of C6, amended: the stub store whose hashed `.bz2` log is corrupt. -/
theorem getBuildLog_reads_flat_bz2_only_after_fallthrough_witness :
    Call.readFile "/var/log/nix/drvs/abcdef.drv.bz2".toList
      ∈ (getBuildLog corruptHashedStore "/nix/store/abcdef.drv".toList).calls ∧
    corruptHashedStore.pathExists "/var/log/nix/drvs/ab/cdef.drv".toList = false ∧
    (corruptHashedStore.pathExists "/var/log/nix/drvs/ab/cdef.drv.bz2".toList = false ∨
      corruptHashedStore.FailsToDecompress "/var/log/nix/drvs/ab/cdef.drv.bz2".toList) ∧
    corruptHashedStore.pathExists "/var/log/nix/drvs/abcdef.drv".toList = false :=
  ⟨by decide,
    getBuildLog_reads_flat_bz2_only_after_fallthrough corruptHashedStore
      "/nix/store/abcdef.drv".toList (by decide) (by decide) (by decide)
      (stubStore_readableFiles _ _ _) (by decide)⟩


/-- An iteration whose plain file is absent and whose compressed file is sound yields
the decompressed text. -/
theorem tierOutcome_result_of_bz2 (store : Store) (p : Path) (data text : List Char)
    (h1 : store.pathExists p = false) (h2 : store.pathExists (bz2Of p) = true)
    (h3 : store.readFile (bz2Of p) = .ok data)
    (h4 : store.decompress "bzip2".toList data = .ok text) :
    (tierOutcome store p).result = .ok (some text) := by
  unfold tierOutcome
  generalize "bzip2".toList = m at h4 ⊢
  simp [h1, h2, h3, h4]

/-- An iteration whose plain file is absent and whose compressed file is corrupt
probes both, reads the compressed file, fails to decompress it and falls through. -/
theorem tierOutcome_of_corrupt (store : Store) (p : Path) (data : List Char) (e : Exn)
    (h1 : store.pathExists p = false) (h2 : store.pathExists (bz2Of p) = true)
    (h3 : store.readFile (bz2Of p) = .ok data)
    (h4 : store.decompress "bzip2".toList data = .error e) (he : e.isError = true) :
    tierOutcome store p =
      ⟨.ok none, [Call.pathExists p, Call.pathExists (bz2Of p), Call.readFile (bz2Of p),
        Call.decompress "bzip2".toList data]⟩ := by
  unfold tierOutcome
  generalize "bzip2".toList = m at h4 ⊢
  simp [h1, h2, h3, h4, he]

/-- C7: for a derivation store path whose hashed plain log is absent and whose hashed
`.bz2` log exists but fails to decompress with an `Error`, `getBuildLog` does not raise
that error: it goes on with the flat tier and returns what the flat tier yields, that
is the contents of the flat plain file if it exists; else the decompressed flat `.bz2`
file if it exists and decompresses; else absent. -/
theorem getBuildLog_corrupt_hashed_bz2_continues (store : Store) (path : Path)
    (data : List Char) (e : Exn)
    (hsp : store.assertStorePath path = .ok ()) (hdrv : store.isDerivation path = true)
    (hb : 2 ≤ (store.baseNameOf path).length)
    (h1 : store.pathExists (hashedLogPath store.logDir (store.baseNameOf path)) = false)
    (h2 : store.pathExists
      (bz2Of (hashedLogPath store.logDir (store.baseNameOf path))) = true)
    (h3 : store.readFile
      (bz2Of (hashedLogPath store.logDir (store.baseNameOf path))) = .ok data)
    (h4 : store.decompress "bzip2".toList data = .error e) (he : e.isError = true) :
    getBuildLog store path =
      ⟨(getBuildLogTier store (store.baseNameOf path) 1).result,
        [Call.pathExists (hashedLogPath store.logDir (store.baseNameOf path)),
         Call.pathExists (bz2Of (hashedLogPath store.logDir (store.baseNameOf path))),
         Call.readFile (bz2Of (hashedLogPath store.logDir (store.baseNameOf path))),
         Call.decompress "bzip2".toList data]
        ++ (getBuildLogTier store (store.baseNameOf path) 1).calls⟩ ∧
    (∀ contents,
      store.pathExists (flatLogPath store.logDir (store.baseNameOf path)) = true →
      store.readFile (flatLogPath store.logDir (store.baseNameOf path)) = .ok contents →
      (getBuildLog store path).result = .ok (some contents)) ∧
    (∀ data1 text,
      store.pathExists (flatLogPath store.logDir (store.baseNameOf path)) = false →
      store.pathExists (bz2Of (flatLogPath store.logDir (store.baseNameOf path))) = true →
      store.readFile (bz2Of (flatLogPath store.logDir (store.baseNameOf path))) = .ok data1 →
      store.decompress "bzip2".toList data1 = .ok text →
      (getBuildLog store path).result = .ok (some text)) ∧
    (store.pathExists (flatLogPath store.logDir (store.baseNameOf path)) = false →
      (store.pathExists (bz2Of (flatLogPath store.logDir (store.baseNameOf path))) = false ∨
        store.FailsToDecompress
          (bz2Of (flatLogPath store.logDir (store.baseNameOf path)))) →
      (getBuildLog store path).result = .ok none) := by
  have h0 := tierOutcome_of_corrupt store _ data e h1 h2 h3 h4 he
  have hall : getBuildLog store path =
      ⟨(tierOutcome store (flatLogPath store.logDir (store.baseNameOf path))).result,
        [Call.pathExists (hashedLogPath store.logDir (store.baseNameOf path)),
         Call.pathExists (bz2Of (hashedLogPath store.logDir (store.baseNameOf path))),
         Call.readFile (bz2Of (hashedLogPath store.logDir (store.baseNameOf path))),
         Call.decompress "bzip2".toList data]
        ++ (tierOutcome store (flatLogPath store.logDir (store.baseNameOf path))).calls⟩ := by
    rw [getBuildLog_of_derivation store path hsp hdrv,
      getBuildLogLoop_of_fallthrough store _ hb (by rw [h0]), h0]
  have hres : (getBuildLog store path).result
      = (tierOutcome store (flatLogPath store.logDir (store.baseNameOf path))).result := by
    rw [hall]
  refine ⟨?_, ?_, ?_, ?_⟩
  · rw [hall, getBuildLogTier_one]
  · intro contents hex hc
    rw [hres, tierOutcome_plain store _ hex, hc]
    rfl
  · intro data1 text hp hq hd ht
    rw [hres]
    exact tierOutcome_result_of_bz2 store _ data1 text hp hq hd ht
  · intro hp hq
    rw [hres]
    exact tierOutcome_result_of_unresolved store _ hp hq

/-- Witness of C7: the hashed `.bz2` log of the stub store is corrupt, its flat `.bz2`
log decompresses to `flat log`. -/
theorem getBuildLog_corrupt_hashed_bz2_continues_witness :
    corruptHashedStore.pathExists "/var/log/nix/drvs/ab/cdef.drv".toList = false ∧
    corruptHashedStore.pathExists "/var/log/nix/drvs/ab/cdef.drv.bz2".toList = true ∧
    corruptHashedStore.readFile "/var/log/nix/drvs/ab/cdef.drv.bz2".toList
      = .ok "garbage".toList ∧
    corruptHashedStore.decompress "bzip2".toList "garbage".toList
      = .error (Exn.error "decompression failed".toList) ∧
    (getBuildLog corruptHashedStore "/nix/store/abcdef.drv".toList).result
      = .ok (some "flat log".toList) :=
  ⟨by decide, by decide, by decide, by decide,
    (getBuildLog_corrupt_hashed_bz2_continues corruptHashedStore
      "/nix/store/abcdef.drv".toList "garbage".toList
      (Exn.error "decompression failed".toList)
      (by decide) (by decide) (by decide) (by decide) (by decide) (by decide)
      (by decide) (by decide)).2.2.1
      "BZflat log".toList "flat log".toList (by decide) (by decide) (by decide)
      (by decide)⟩

/-- C8: for a derivation store path, if in both tiers the plain file is absent and the
`.bz2` file is absent or fails to decompress, `getBuildLog` returns the absent result
and raises no error. -/
theorem getBuildLog_absent_when_nothing_resolves (store : Store) (path : Path)
    (hsp : store.assertStorePath path = .ok ()) (hdrv : store.isDerivation path = true)
    (hb : 2 ≤ (store.baseNameOf path).length)
    (h0p : store.pathExists (hashedLogPath store.logDir (store.baseNameOf path)) = false)
    (h0b : store.pathExists
        (bz2Of (hashedLogPath store.logDir (store.baseNameOf path))) = false ∨
      store.FailsToDecompress (bz2Of (hashedLogPath store.logDir (store.baseNameOf path))))
    (h1p : store.pathExists (flatLogPath store.logDir (store.baseNameOf path)) = false)
    (h1b : store.pathExists
        (bz2Of (flatLogPath store.logDir (store.baseNameOf path))) = false ∨
      store.FailsToDecompress (bz2Of (flatLogPath store.logDir (store.baseNameOf path)))) :
    (getBuildLog store path).result = .ok none := by
  rw [getBuildLog_of_derivation store path hsp hdrv,
    getBuildLogLoop_result_of_fallthrough store _ hb
      (tierOutcome_result_of_unresolved store _ h0p h0b)]
  exact tierOutcome_result_of_unresolved store _ h1p h1b

/-- Witness of C8: both compressed logs of the stub store are corrupt and there is no
plain log. -/
theorem getBuildLog_absent_when_nothing_resolves_witness :
    corruptLogsStore.pathExists "/var/log/nix/drvs/ab/cdef.drv".toList = false ∧
    corruptLogsStore.pathExists "/var/log/nix/drvs/ab/cdef.drv.bz2".toList = true ∧
    corruptLogsStore.pathExists "/var/log/nix/drvs/abcdef.drv".toList = false ∧
    corruptLogsStore.pathExists "/var/log/nix/drvs/abcdef.drv.bz2".toList = true ∧
    (getBuildLog corruptLogsStore "/nix/store/abcdef.drv".toList).result = .ok none :=
  ⟨by decide, by decide, by decide, by decide,
    getBuildLog_absent_when_nothing_resolves corruptLogsStore
      "/nix/store/abcdef.drv".toList (by decide) (by decide) (by decide) (by decide)
      (Or.inr ⟨"garbage".toList, Exn.error "decompression failed".toList,
        by decide, by decide, by decide⟩)
      (by decide)
      (Or.inr ⟨"rubbish".toList, Exn.error "decompression failed".toList,
        by decide, by decide, by decide⟩)⟩


/-- The calls of an iteration: probes and reads of its two files, and decompression. -/
theorem mem_tierOutcome_calls (store : Store) (p : Path) (c : Call)
    (h : c ∈ (tierOutcome store p).calls) :
    c = Call.pathExists p ∨ c = Call.readFile p ∨ c = Call.pathExists (bz2Of p) ∨
      c = Call.readFile (bz2Of p) ∨ ∃ data, c = Call.decompress "bzip2".toList data := by
  unfold tierOutcome at h
  generalize "bzip2".toList = m at h ⊢
  cases h1 : store.pathExists p
  · cases h2 : store.pathExists (bz2Of p)
    · simp only [h1, h2, Bool.false_eq_true, if_false, List.mem_cons, List.mem_singleton,
        List.not_mem_nil, or_false] at h
      rcases h with h | h
      · exact Or.inl h
      · exact Or.inr (Or.inr (Or.inl h))
    · cases h3 : store.readFile (bz2Of p) with
      | error e =>
        simp only [h1, h2, h3, Bool.false_eq_true, if_false, if_true, List.mem_cons,
          List.mem_singleton, List.not_mem_nil, or_false] at h
        rcases h with h | h | h
        · exact Or.inl h
        · exact Or.inr (Or.inr (Or.inl h))
        · exact Or.inr (Or.inr (Or.inr (Or.inl h)))
      | ok data =>
        have h' : c ∈ [Call.pathExists p, Call.pathExists (bz2Of p),
            Call.readFile (bz2Of p), Call.decompress m data] := by
          cases h4 : store.decompress m data <;> simpa [h1, h2, h3, h4] using h
        simp only [List.mem_cons, List.mem_singleton, List.not_mem_nil, or_false] at h'
        rcases h' with h | h | h | h
        · exact Or.inl h
        · exact Or.inr (Or.inr (Or.inl h))
        · exact Or.inr (Or.inr (Or.inr (Or.inl h)))
        · exact Or.inr (Or.inr (Or.inr (Or.inr ⟨data, h⟩)))
  · simp only [h1, if_true, List.mem_cons, List.mem_singleton, List.not_mem_nil,
      or_false] at h
    rcases h with h | h
    · exact Or.inl h
    · exact Or.inr (Or.inl h)

/-- With a base name of fewer than two characters the search fails at once. -/
theorem getBuildLogLoop_short (store : Store) (b : List Char) (hb : b.length < 2) :
    getBuildLogLoop store b 0 2 = ⟨.error Exn.outOfRange, []⟩ := by
  simp [getBuildLogLoop, getBuildLogTier, logPathOf, substr, substrFrom, Outcome.lift,
    Outcome.andThen, hb]

/-- The calls of the search: probes and reads of the candidate files of the base name,
and decompression. -/
theorem mem_getBuildLogLoop_calls_cases (store : Store) (b : List Char) (c : Call)
    (h : c ∈ (getBuildLogLoop store b 0 2).calls) :
    (∃ q ∈ candidatePaths store.logDir b, c = Call.pathExists q ∨ c = Call.readFile q) ∨
      ∃ data, c = Call.decompress "bzip2".toList data := by
  by_cases hb : 2 ≤ b.length
  · have hmem : ∀ p, (p = hashedLogPath store.logDir b ∨ p = flatLogPath store.logDir b) →
        c ∈ (tierOutcome store p).calls →
        (∃ q ∈ candidatePaths store.logDir b, c = Call.pathExists q ∨ c = Call.readFile q) ∨
          ∃ data, c = Call.decompress "bzip2".toList data := by
      intro p hp hc
      have hp1 : p ∈ candidatePaths store.logDir b := by
        rcases hp with hp | hp <;> subst hp <;>
          simp [candidatePaths, logCandidates, Candidate.path]
      have hp2 : bz2Of p ∈ candidatePaths store.logDir b := by
        rcases hp with hp | hp <;> subst hp <;>
          simp [candidatePaths, logCandidates, Candidate.path]
      rcases mem_tierOutcome_calls store p c hc with h | h | h | h | h
      · exact Or.inl ⟨p, hp1, Or.inl h⟩
      · exact Or.inl ⟨p, hp1, Or.inr h⟩
      · exact Or.inl ⟨bz2Of p, hp2, Or.inl h⟩
      · exact Or.inl ⟨bz2Of p, hp2, Or.inr h⟩
      · exact Or.inr h
    rcases mem_getBuildLogLoop_calls store b hb c h with h0 | ⟨_, h1⟩
    · exact hmem _ (Or.inl rfl) h0
    · exact hmem _ (Or.inr rfl) h1
  · rw [getBuildLogLoop_short store b (Nat.lt_of_not_le hb)] at h
    simp at h


/-! ## Normalisation to the derivation -/

/-- For a path that is not a derivation whose `queryPathInfo` raises `InvalidPath`, the
first part of `getBuildLog` returns `nullptr` after that one call. -/
theorem getBuildLogDrv_of_invalid (store : Store) (path : Path) (e : Exn)
    (hsp : store.assertStorePath path = .ok ()) (hnd : store.isDerivation path = false)
    (hq : store.queryPathInfo path = .error e) (he : e.isInvalidPath = true) :
    getBuildLogDrv store path = ⟨.ok none, [Call.queryPathInfo path]⟩ := by
  simp [getBuildLogDrv, Outcome.lift, Outcome.andThen, Outcome.handle, Outcome.call,
    Outcome.ret, hsp, hnd, hq, he]

/-- For a path that is not a derivation, the first part of `getBuildLog` returns the
recorded deriver, `nullptr` when it is the empty string. -/
theorem getBuildLogDrv_of_deriver (store : Store) (path : Path) (info : ValidPathInfo)
    (hsp : store.assertStorePath path = .ok ()) (hnd : store.isDerivation path = false)
    (hq : store.queryPathInfo path = .ok info) :
    getBuildLogDrv store path =
      ⟨.ok (if info.deriver = [] then none else some info.deriver),
        [Call.queryPathInfo path]⟩ := by
  by_cases hd : info.deriver = [] <;>
    simp [getBuildLogDrv, Outcome.lift, Outcome.andThen, Outcome.handle, Outcome.call,
      Outcome.ret, hsp, hnd, hq, hd]

/-- C9: for a store path that is not a derivation, if `queryPathInfo` raises
`InvalidPath` or records the empty string as deriver, `getBuildLog` returns the absent
result, not an error; its only collaborator call is `queryPathInfo`: no log file is
probed or read. -/
theorem getBuildLog_absent_without_deriver (store : Store) (path : Path)
    (hsp : store.assertStorePath path = .ok ()) (hnd : store.isDerivation path = false)
    (hq : (∃ e, store.queryPathInfo path = .error e ∧ e.isInvalidPath = true) ∨
      (∃ info, store.queryPathInfo path = .ok info ∧ info.deriver = [])) :
    getBuildLog store path = ⟨.ok none, [Call.queryPathInfo path]⟩ ∧
    (∀ c ∈ (getBuildLog store path).calls, c.isLogProbe = false) := by
  have h : getBuildLog store path = ⟨.ok none, [Call.queryPathInfo path]⟩ := by
    unfold getBuildLog
    rcases hq with ⟨e, hq, he⟩ | ⟨info, hq, hd⟩
    · rw [getBuildLogDrv_of_invalid store path e hsp hnd hq he]
      rfl
    · rw [getBuildLogDrv_of_deriver store path info hsp hnd hq, if_pos hd]
      rfl
  refine ⟨h, ?_⟩
  intro c hc
  rw [h] at hc
  simp only [List.mem_singleton] at hc
  subst hc
  rfl

/-- Witness of C9: `/nix/store/zzz-gone` is not valid in the stub store and
`/nix/store/out2-src` has no recorded deriver. -/
theorem getBuildLog_absent_without_deriver_witness :
    buildLogStore.queryPathInfo "/nix/store/zzz-gone".toList
      = .error (Exn.invalidPath "path is not valid".toList) ∧
    buildLogStore.queryPathInfo "/nix/store/out2-src".toList = .ok ⟨[]⟩ ∧
    getBuildLog buildLogStore "/nix/store/zzz-gone".toList
      = ⟨.ok none, [Call.queryPathInfo "/nix/store/zzz-gone".toList]⟩ ∧
    getBuildLog buildLogStore "/nix/store/out2-src".toList
      = ⟨.ok none, [Call.queryPathInfo "/nix/store/out2-src".toList]⟩ :=
  ⟨by decide, by decide,
    (getBuildLog_absent_without_deriver buildLogStore "/nix/store/zzz-gone".toList
      (by decide) (by decide)
      (Or.inl ⟨Exn.invalidPath "path is not valid".toList, by decide, by decide⟩)).1,
    (getBuildLog_absent_without_deriver buildLogStore "/nix/store/out2-src".toList
      (by decide) (by decide) (Or.inr ⟨⟨[]⟩, by decide, rfl⟩)).1⟩

/-- C10: for an input store path that is a derivation, `getBuildLog` runs the search on
the base name of the input path and never calls `queryPathInfo`; for an input that is
not a derivation and has a non-empty recorded deriver, it calls `queryPathInfo` once and
runs the search on the base name of the deriver. In both cases every file probed or
read is a candidate of that base name. -/
theorem getBuildLog_searches_derivation_basename (store : Store) (path : Path)
    (hsp : store.assertStorePath path = .ok ()) :
    (store.isDerivation path = true →
      getBuildLog store path = getBuildLogLoop store (store.baseNameOf path) 0 2 ∧
      (∀ p, Call.queryPathInfo p ∉ (getBuildLog store path).calls) ∧
      (∀ q, (Call.pathExists q ∈ (getBuildLog store path).calls ∨
          Call.readFile q ∈ (getBuildLog store path).calls) →
        q ∈ candidatePaths store.logDir (store.baseNameOf path))) ∧
    (store.isDerivation path = false →
      ∀ info, store.queryPathInfo path = .ok info → info.deriver ≠ [] →
      getBuildLog store path =
        ⟨(getBuildLogLoop store (store.baseNameOf info.deriver) 0 2).result,
          Call.queryPathInfo path ::
            (getBuildLogLoop store (store.baseNameOf info.deriver) 0 2).calls⟩ ∧
      (∀ q, (Call.pathExists q ∈ (getBuildLog store path).calls ∨
          Call.readFile q ∈ (getBuildLog store path).calls) →
        q ∈ candidatePaths store.logDir (store.baseNameOf info.deriver))) := by
  have hprobe : ∀ (b : List Char) (q : Path),
      (Call.pathExists q ∈ (getBuildLogLoop store b 0 2).calls ∨
        Call.readFile q ∈ (getBuildLogLoop store b 0 2).calls) →
      q ∈ candidatePaths store.logDir b := by
    intro b q hq
    rcases hq with hq | hq
    · rcases mem_getBuildLogLoop_calls_cases store b _ hq with ⟨r, hr, h | h⟩ | ⟨d, h⟩
      · cases h; exact hr
      · cases h
      · cases h
    · rcases mem_getBuildLogLoop_calls_cases store b _ hq with ⟨r, hr, h | h⟩ | ⟨d, h⟩
      · cases h
      · cases h; exact hr
      · cases h
  refine ⟨?_, ?_⟩
  · intro hdrv
    have h := getBuildLog_of_derivation store path hsp hdrv
    refine ⟨h, ?_, ?_⟩
    · intro p hp
      rw [h] at hp
      rcases mem_getBuildLogLoop_calls_cases store _ _ hp with ⟨r, _, h1 | h1⟩ | ⟨d, h1⟩ <;>
        cases h1
    · intro q hq
      rw [h] at hq
      exact hprobe _ q hq
  · intro hnd info hq hd
    have h : getBuildLog store path =
        ⟨(getBuildLogLoop store (store.baseNameOf info.deriver) 0 2).result,
          Call.queryPathInfo path ::
            (getBuildLogLoop store (store.baseNameOf info.deriver) 0 2).calls⟩ := by
      unfold getBuildLog
      rw [getBuildLogDrv_of_deriver store path info hsp hnd hq, if_neg hd]
      rfl
    refine ⟨h, ?_⟩
    intro q hq
    rw [h] at hq
    simp only [List.mem_cons, reduceCtorEq, false_or] at hq
    exact hprobe _ q hq

/-- Witness of C10: for the output `/nix/store/out1-hello` of the stub store the
search probes the hashed log of its deriver `/nix/store/abcdef.drv`; for the
derivation itself no `queryPathInfo` call is made. -/
theorem getBuildLog_searches_derivation_basename_witness :
    buildLogStore.assertStorePath "/nix/store/out1-hello".toList = .ok () ∧
    buildLogStore.isDerivation "/nix/store/out1-hello".toList = false ∧
    buildLogStore.queryPathInfo "/nix/store/out1-hello".toList
      = .ok ⟨"/nix/store/abcdef.drv".toList⟩ ∧
    getBuildLog buildLogStore "/nix/store/out1-hello".toList =
      ⟨.ok (some "hashed log".toList),
        [Call.queryPathInfo "/nix/store/out1-hello".toList,
         Call.pathExists "/var/log/nix/drvs/ab/cdef.drv".toList,
         Call.readFile "/var/log/nix/drvs/ab/cdef.drv".toList]⟩ :=
  ⟨by decide, by decide, by decide,
    ((getBuildLog_searches_derivation_basename buildLogStore
      "/nix/store/out1-hello".toList (by decide)).2 (by decide)
      ⟨"/nix/store/abcdef.drv".toList⟩ (by decide) (by decide)).1⟩

/-! ## The candidate paths -/

/-- An iteration that finds neither of its files probes both and falls through. -/
theorem tierOutcome_of_absent (store : Store) (p : Path)
    (h1 : store.pathExists p = false) (h2 : store.pathExists (bz2Of p) = false) :
    tierOutcome store p = ⟨.ok none, [Call.pathExists p, Call.pathExists (bz2Of p)]⟩ := by
  simp [tierOutcome, h1, h2]

/-- C11: for every log directory and every base name `b` of at least two characters, the
log path of tier 0 is `logDir ++ "/drvs/" ++ b[0:2] ++ "/" ++ b[2:]` and that of tier 1 is
`logDir ++ "/drvs/" ++ b`; the candidates are these two paths and each of them followed
by `.bz2`. Every file the search probes or reads is one of these four, and when none of
them exists it probes exactly these four, in this order. `getBuildLog` on a derivation
with base name `b` is that search. -/
theorem getBuildLog_probes_candidate_paths (store : Store) (b : List Char)
    (hb : 2 ≤ b.length) :
    logPathOf store b 0
      = Outcome.ret (store.logDir ++ "/drvs/".toList ++ b.take 2 ++ "/".toList ++ b.drop 2) ∧
    logPathOf store b 1 = Outcome.ret (store.logDir ++ "/drvs/".toList ++ b) ∧
    candidatePaths store.logDir b
      = [store.logDir ++ "/drvs/".toList ++ b.take 2 ++ "/".toList ++ b.drop 2,
         (store.logDir ++ "/drvs/".toList ++ b.take 2 ++ "/".toList ++ b.drop 2)
           ++ ".bz2".toList,
         store.logDir ++ "/drvs/".toList ++ b,
         (store.logDir ++ "/drvs/".toList ++ b) ++ ".bz2".toList] ∧
    (∀ q, (Call.pathExists q ∈ (getBuildLogLoop store b 0 2).calls ∨
        Call.readFile q ∈ (getBuildLogLoop store b 0 2).calls) →
      q ∈ candidatePaths store.logDir b) ∧
    ((∀ q ∈ candidatePaths store.logDir b, store.pathExists q = false) →
      (getBuildLogLoop store b 0 2).calls
        = (candidatePaths store.logDir b).map Call.pathExists) ∧
    (∀ path, store.assertStorePath path = .ok () → store.isDerivation path = true →
      store.baseNameOf path = b →
      getBuildLog store path = getBuildLogLoop store b 0 2) := by
  refine ⟨logPathOf_zero store b hb, logPathOf_succ store b 0, rfl, ?_, ?_, ?_⟩
  · intro q hq
    rcases hq with hq | hq
    · rcases mem_getBuildLogLoop_calls_cases store b _ hq with ⟨r, hr, h1 | h1⟩ | ⟨d, h1⟩
      · cases h1; exact hr
      · cases h1
      · cases h1
    · rcases mem_getBuildLogLoop_calls_cases store b _ hq with ⟨r, hr, h1 | h1⟩ | ⟨d, h1⟩
      · cases h1
      · cases h1; exact hr
      · cases h1
  · intro habs
    have a0 := habs (hashedLogPath store.logDir b)
      (by simp [candidatePaths, logCandidates, Candidate.path])
    have a1 := habs (bz2Of (hashedLogPath store.logDir b))
      (by simp [candidatePaths, logCandidates, Candidate.path])
    have a2 := habs (flatLogPath store.logDir b)
      (by simp [candidatePaths, logCandidates, Candidate.path])
    have a3 := habs (bz2Of (flatLogPath store.logDir b))
      (by simp [candidatePaths, logCandidates, Candidate.path])
    have t0 := tierOutcome_of_absent store _ a0 a1
    have t1 := tierOutcome_of_absent store _ a2 a3
    rw [getBuildLogLoop_of_fallthrough store b hb (by rw [t0]), t0, t1]
    rfl
  · intro path hsp hdrv hbn
    rw [getBuildLog_of_derivation store path hsp hdrv, hbn]

/-- Witness of C11: base name `x1y2-foo` under `/var/log/nix`, with no log on disk. -/
theorem getBuildLog_probes_candidate_paths_witness :
    2 ≤ "x1y2-foo".toList.length ∧
    candidatePaths (stubStore [] [] []).logDir "x1y2-foo".toList
      = ["/var/log/nix/drvs/x1/y2-foo".toList, "/var/log/nix/drvs/x1/y2-foo.bz2".toList,
         "/var/log/nix/drvs/x1y2-foo".toList, "/var/log/nix/drvs/x1y2-foo.bz2".toList] ∧
    (getBuildLogLoop (stubStore [] [] []) "x1y2-foo".toList 0 2).calls
      = [Call.pathExists "/var/log/nix/drvs/x1/y2-foo".toList,
         Call.pathExists "/var/log/nix/drvs/x1/y2-foo.bz2".toList,
         Call.pathExists "/var/log/nix/drvs/x1y2-foo".toList,
         Call.pathExists "/var/log/nix/drvs/x1y2-foo.bz2".toList] :=
  ⟨by decide,
    (getBuildLog_probes_candidate_paths (stubStore [] [] []) "x1y2-foo".toList
      (by decide)).2.2.1,
    (getBuildLog_probes_candidate_paths (stubStore [] [] []) "x1y2-foo".toList
      (by decide)).2.2.2.2.1 (by decide)⟩

/-! ## The archive dump entry point -/

/-- With a valid path of at least the length of the store directory, `narFromPath` calls
the archive encoder once, on the translated real path and the given sink. -/
theorem narFromPath_valid (store : Store) (path : Path) (sink : Nat)
    (hval : store.isValidPath path = true) (hlen : store.storeDir.length ≤ path.length) :
    narFromPath store path sink =
      ⟨store.dumpPath (store.realStoreDir ++ path.drop store.storeDir.length) sink,
        [Call.isValidPath path,
         Call.dumpPath (store.realStoreDir ++ path.drop store.storeDir.length) sink]⟩ := by
  have h : ¬ path.length < store.storeDir.length := Nat.not_lt.mpr hlen
  simp [narFromPath, Outcome.andThen, Outcome.lift, Outcome.call, Outcome.ret, substrFrom,
    hval, h]

/-- With a path that is not valid, `narFromPath` throws after the validity query. -/
theorem narFromPath_invalid (store : Store) (path : Path) (sink : Nat)
    (hinv : store.isValidPath path = false) :
    narFromPath store path sink =
      ⟨.error (Exn.error ("path \x27".toList ++ path ++ "\x27 is not valid".toList)),
        [Call.isValidPath path]⟩ := by
  simp [narFromPath, Outcome.andThen, Outcome.call, Outcome.raise, hinv]

/-- With a valid path shorter than the store directory, `narFromPath` fails with
`std::out_of_range` before the archive encoder is called. -/
theorem narFromPath_short (store : Store) (path : Path) (sink : Nat)
    (hval : store.isValidPath path = true) (hlen : path.length < store.storeDir.length) :
    narFromPath store path sink = ⟨.error Exn.outOfRange, [Call.isValidPath path]⟩ := by
  simp [narFromPath, Outcome.andThen, Outcome.lift, Outcome.call, Outcome.ret, substrFrom,
    hval, hlen]

/-- C12: `narFromPath` stops with the error `path '<path>' is not valid`, after the
validity query alone, if and only if `isValidPath(path)` is false; the archive encoder is
then not invoked. For a valid store path (at least as long as the store directory) the
encoder `dumpPath` is invoked exactly once, on `getRealStoreDir() + path[len(storeDir):]`
and the given sink, and its outcome is the outcome of `narFromPath`. -/
theorem narFromPath_dumps_iff_valid (store : Store) (path : Path) (sink : Nat)
    (hlen : store.storeDir.length ≤ path.length) :
    (store.isValidPath path = false ↔
      narFromPath store path sink =
        ⟨.error (Exn.error ("path \x27".toList ++ path ++ "\x27 is not valid".toList)),
          [Call.isValidPath path]⟩) ∧
    (store.isValidPath path = false →
      ∀ p k, Call.dumpPath p k ∉ (narFromPath store path sink).calls) ∧
    (store.isValidPath path = true →
      narFromPath store path sink =
        ⟨store.dumpPath (store.realStoreDir ++ path.drop store.storeDir.length) sink,
          [Call.isValidPath path,
           Call.dumpPath (store.realStoreDir ++ path.drop store.storeDir.length) sink]⟩ ∧
      ((narFromPath store path sink).calls.filter
          (fun c => match c with
            | Call.dumpPath _ _ => true
            | _ => false))
        = [Call.dumpPath (store.realStoreDir ++ path.drop store.storeDir.length) sink]) := by
  refine ⟨⟨fun h => narFromPath_invalid store path sink h, ?_⟩, ?_, ?_⟩
  · intro h
    cases hv : store.isValidPath path
    · rfl
    · rw [narFromPath_valid store path sink hv hlen] at h
      have := congrArg Outcome.calls h
      simp at this
  · intro h p k
    rw [narFromPath_invalid store path sink h]
    simp
  · intro h
    rw [narFromPath_valid store path sink h hlen]
    exact ⟨rfl, rfl⟩

/-- Witness of C12: the valid store path `/nix/store/abc-foo` is dumped from
`/mnt/real/abc-foo`; the path `/nix/store/xyz-bar` is not valid. -/
theorem narFromPath_dumps_iff_valid_witness :
    accessorStore.storeDir.length ≤ "/nix/store/abc-foo".toList.length ∧
    accessorStore.isValidPath "/nix/store/abc-foo".toList = true ∧
    narFromPath accessorStore "/nix/store/abc-foo".toList 7 =
      ⟨.ok (), [Call.isValidPath "/nix/store/abc-foo".toList,
        Call.dumpPath "/mnt/real/abc-foo".toList 7]⟩ ∧
    accessorStore.isValidPath "/nix/store/xyz-bar".toList = false ∧
    narFromPath accessorStore "/nix/store/xyz-bar".toList 7 =
      ⟨.error (Exn.error "path \x27/nix/store/xyz-bar\x27 is not valid".toList),
        [Call.isValidPath "/nix/store/xyz-bar".toList]⟩ :=
  ⟨by decide, by decide,
    ((narFromPath_dumps_iff_valid accessorStore "/nix/store/abc-foo".toList 7
      (by decide)).2.2 (by decide)).1,
    by decide,
    (narFromPath_dumps_iff_valid accessorStore "/nix/store/xyz-bar".toList 7
      (by decide)).1.mp (by decide)⟩

/-! ## The status of an entry -/

/-- For a path accepted by the gate, `stat` calls `lstat` on the real path and turns the
reported status into its result as `statResult` lists. -/
theorem stat_eq (store : Store) (path sp : Path) (fi : FileInfo)
    (hlen : store.storeDir.length ≤ path.length)
    (hsp : store.toStorePath path = .ok sp) (hval : store.isValidPath sp = true)
    (hl : store.lstat (store.realStoreDir ++ path.drop store.storeDir.length) = .ok fi) :
    stat store path =
      ⟨statResult path fi,
        [Call.isValidPath sp,
         Call.lstat (store.realStoreDir ++ path.drop store.storeDir.length)]⟩ := by
  unfold stat statResult
  simp only [Outcome.bind_eq, Outcome.pure_eq, Outcome.throw_eq,
    toRealPath_valid store path sp hlen hsp hval]
  generalize "file \x27".toList = m1
  generalize "\x27 has unsupported type".toList = m2
  cases hm : fi.is_missing
  · cases ht : fi.type <;>
      simp [Outcome.andThen, Outcome.call, Outcome.ret, Outcome.raise, hl, hm, ht]
  · simp [Outcome.andThen, Outcome.call, Outcome.ret, hl, hm]


/-- C13: for a virtual path accepted by the gate whose real path does not exist (the
status `lstat` reports for it is missing), `stat` returns exactly `{Missing, 0, false}`,
without an error, after the validity query and the one `lstat` call. -/
theorem stat_missing (store : Store) (path sp : Path) (fi : FileInfo)
    (hlen : store.storeDir.length ≤ path.length)
    (hsp : store.toStorePath path = .ok sp) (hval : store.isValidPath sp = true)
    (hl : store.lstat (store.realStoreDir ++ path.drop store.storeDir.length) = .ok fi)
    (hm : fi.is_missing = true) :
    stat store path =
      ⟨.ok ⟨AccessorType.tMissing, 0, false⟩,
        [Call.isValidPath sp,
         Call.lstat (store.realStoreDir ++ path.drop store.storeDir.length)]⟩ := by
  rw [stat_eq store path sp fi hlen hsp hval hl]
  simp [statResult, hm]

/-- Witness of C13: `/mnt/real/abc-foo/nothing` is not on the disk of the stub store. -/
theorem stat_missing_witness :
    statStore.lstat "/mnt/real/abc-foo/nothing".toList = .ok missingInfo ∧
    missingInfo.is_missing = true ∧
    stat statStore "/nix/store/abc-foo/nothing".toList =
      ⟨.ok ⟨AccessorType.tMissing, 0, false⟩,
        [Call.isValidPath "/nix/store/abc-foo".toList,
         Call.lstat "/mnt/real/abc-foo/nothing".toList]⟩ :=
  ⟨by decide, by decide,
    stat_missing statStore "/nix/store/abc-foo/nothing".toList "/nix/store/abc-foo".toList
      missingInfo (by decide) (by decide) (by decide) (by decide) (by decide)⟩

/-- C14: for a virtual path accepted by the gate whose real entry exists: a regular file,
a symlink and a directory are reported with type Regular, Symlink and Directory; an
entry of any other type makes `stat` throw `file '<path>' has unsupported type`, naming
the path passed to `stat`. `stat` throws that error if and only if the entry exists and
is of none of the three supported types. -/
theorem stat_type_or_unsupported (store : Store) (path sp : Path) (fi : FileInfo)
    (hlen : store.storeDir.length ≤ path.length)
    (hsp : store.toStorePath path = .ok sp) (hval : store.isValidPath sp = true)
    (hl : store.lstat (store.realStoreDir ++ path.drop store.storeDir.length) = .ok fi)
    (hco : fi.Coherent) :
    (fi.is_missing = false → fi.type = FileType.regular →
      ∃ st, (stat store path).result = .ok st ∧ st.type = AccessorType.tRegular) ∧
    (fi.is_missing = false → fi.type = FileType.symlink →
      ∃ st, (stat store path).result = .ok st ∧ st.type = AccessorType.tSymlink) ∧
    (fi.is_missing = false → fi.type = FileType.directory →
      ∃ st, (stat store path).result = .ok st ∧ st.type = AccessorType.tDirectory) ∧
    ((stat store path).result = .error (Exn.error
        ("file \x27".toList ++ path ++ "\x27 has unsupported type".toList)) ↔
      (fi.is_missing = false ∧ fi.type ≠ FileType.regular ∧ fi.type ≠ FileType.symlink ∧
        fi.type ≠ FileType.directory)) ∧
    ((∃ e, (stat store path).result = .error e) ↔
      (fi.is_missing = false ∧ fi.type ≠ FileType.regular ∧ fi.type ≠ FileType.symlink ∧
        fi.type ≠ FileType.directory)) := by
  rw [stat_eq store path sp fi hlen hsp hval hl]
  obtain ⟨hr, hs⟩ := hco
  simp only [statResult]
  generalize "file \x27".toList = m1
  generalize "\x27 has unsupported type".toList = m2
  cases hm : fi.is_missing <;> cases ht : fi.type <;> simp [hr, hs, ht]

/-- Witness of C14: a symlink and a character device of the stub store. -/
theorem stat_type_or_unsupported_witness :
    (stat statStore "/nix/store/abc-foo/link".toList).result
      = .ok ⟨AccessorType.tSymlink, 11, false⟩ ∧
    (stat statStore "/nix/store/abc-foo/tty".toList).result
      = .error (Exn.error
          "file \x27/nix/store/abc-foo/tty\x27 has unsupported type".toList) :=
  ⟨by decide,
    (stat_type_or_unsupported statStore "/nix/store/abc-foo/tty".toList
      "/nix/store/abc-foo".toList ⟨false, FileType.character, false, false, 0, false⟩
      (by decide) (by decide) (by decide) (by decide) (by decide)).2.2.2.1.mpr
      (by decide)⟩


/-- For an entry that exists and has a supported type, the size `stat` returns is the
size `lstat` reports, whatever the type. -/
theorem stat_fileSize (store : Store) (path sp : Path) (fi : FileInfo) (st : Stat)
    (hlen : store.storeDir.length ≤ path.length)
    (hsp : store.toStorePath path = .ok sp) (hval : store.isValidPath sp = true)
    (hl : store.lstat (store.realStoreDir ++ path.drop store.storeDir.length) = .ok fi)
    (hex : fi.is_missing = false) (hst : (stat store path).result = .ok st) :
    st.fileSize = fi.size := by
  rw [stat_eq store path sp fi hlen hsp hval hl] at hst
  simp only [statResult, hex, Bool.false_eq_true, if_false] at hst
  split at hst
  · cases hst; rfl
  · cases hst

/-- C15, the code at the failing inputs: for the symlink `/nix/store/abc-foo/link` of
the stub store, for which `lstat` reports size 11, `stat` returns size 11, and for the
directory `/nix/store/abc-foo/lib`, reported with size 4096, it returns size 4096; the
size is not 0 although the type is not Regular. The executable flag of the same records
is false although `lstat` reports the permission. -/
theorem stat_returns_lstat_size_for_symlink_and_directory :
    statStore.lstat "/mnt/real/abc-foo/link".toList
      = .ok ⟨false, FileType.symlink, false, true, 11, true⟩ ∧
    (stat statStore "/nix/store/abc-foo/link".toList).result
      = .ok ⟨AccessorType.tSymlink, 11, false⟩ ∧
    statStore.lstat "/mnt/real/abc-foo/lib".toList
      = .ok ⟨false, FileType.directory, false, false, 4096, true⟩ ∧
    (stat statStore "/nix/store/abc-foo/lib".toList).result
      = .ok ⟨AccessorType.tDirectory, 4096, false⟩ ∧
    ¬ (∀ st, (stat statStore "/nix/store/abc-foo/link".toList).result = .ok st →
        st.type ≠ AccessorType.tRegular → st.fileSize = 0) := by
  refine ⟨by decide, by decide, by decide, by decide, ?_⟩
  intro h
  have h1 := h ⟨AccessorType.tSymlink, 11, false⟩ (by decide) (by decide)
  revert h1
  decide

/-- C16: for a virtual path accepted by the gate, the executable flag `stat` returns is
true if and only if the real entry exists, is a regular file and has the executable
permission; for a missing entry, a symlink or a directory `stat` returns the flag false,
whatever permission `lstat` reports. -/
theorem stat_isExecutable_iff (store : Store) (path sp : Path) (fi : FileInfo)
    (hlen : store.storeDir.length ≤ path.length)
    (hsp : store.toStorePath path = .ok sp) (hval : store.isValidPath sp = true)
    (hl : store.lstat (store.realStoreDir ++ path.drop store.storeDir.length) = .ok fi)
    (hco : fi.Coherent) :
    (∀ st, (stat store path).result = .ok st →
      (st.isExecutable = true ↔
        (fi.is_missing = false ∧ fi.type = FileType.regular ∧ fi.is_executable = true))) ∧
    (fi.is_missing = false → fi.type = FileType.regular →
      ∃ st, (stat store path).result = .ok st ∧ st.isExecutable = fi.is_executable) ∧
    ((fi.is_missing = true ∨ fi.type = FileType.symlink ∨ fi.type = FileType.directory) →
      ∃ st, (stat store path).result = .ok st ∧ st.isExecutable = false) := by
  rw [stat_eq store path sp fi hlen hsp hval hl]
  obtain ⟨hr, hs⟩ := hco
  simp only [statResult]
  generalize "file \x27".toList = m1
  generalize "\x27 has unsupported type".toList = m2
  refine ⟨?_, ?_, ?_⟩
  · intro st hst
    cases hm : fi.is_missing <;> cases ht : fi.type <;>
      simp [hm, hr, hs, ht] at hst <;> subst hst <;> simp
  · intro hm ht
    simp [hm, hr, hs, ht]
  · intro h
    cases hm : fi.is_missing
    · rcases h with h | h | h
      · rw [hm] at h; cases h
      · simp [hr, hs, h]
      · simp [hr, hs, h]
    · simp

/-- Witness of C16: the symlink of the stub store has the executable permission and is
reported as not executable; the regular file `bin/sh` is reported as executable. -/
theorem stat_isExecutable_iff_witness :
    statStore.lstat "/mnt/real/abc-foo/link".toList
      = .ok ⟨false, FileType.symlink, false, true, 11, true⟩ ∧
    (∃ st, (stat statStore "/nix/store/abc-foo/link".toList).result = .ok st ∧
      st.isExecutable = false) ∧
    (stat statStore "/nix/store/abc-foo/bin/sh".toList).result
      = .ok ⟨AccessorType.tRegular, 120, true⟩ :=
  ⟨by decide,
    (stat_isExecutable_iff statStore "/nix/store/abc-foo/link".toList
      "/nix/store/abc-foo".toList ⟨false, FileType.symlink, false, true, 11, true⟩
      (by decide) (by decide) (by decide) (by decide) (by decide)).2.2
      (Or.inr (Or.inl rfl)),
    by decide⟩

/-! ## The listing of a directory -/

/-- Inserting the names of a listing one by one adds the set of these names. -/
theorem foldl_insert_name (entries : List DirEntry) (acc : Finset (List Char)) :
    entries.foldl (fun res entry => insert entry.name res) acc
      = acc ∪ (entries.map DirEntry.name).toFinset := by
  induction entries generalizing acc with
  | nil => simp
  | cons e es ih =>
    rw [List.foldl_cons, ih]
    ext n
    simp only [Finset.mem_union, Finset.mem_insert, List.map_cons, List.toFinset_cons]
    tauto

/-- For a path accepted by the gate, `readDirectory` lists the real path and returns
the set of the names of the listing. -/
theorem readDirectory_eq (store : Store) (path sp : Path) (entries : List DirEntry)
    (hlen : store.storeDir.length ≤ path.length)
    (hsp : store.toStorePath path = .ok sp) (hval : store.isValidPath sp = true)
    (hr : store.readDirectory (store.realStoreDir ++ path.drop store.storeDir.length)
      = .ok entries) :
    readDirectory store path =
      ⟨.ok (entries.map DirEntry.name).toFinset,
        [Call.isValidPath sp,
         Call.readDirectory (store.realStoreDir ++ path.drop store.storeDir.length)]⟩ := by
  unfold readDirectory
  simp only [Outcome.bind_eq, Outcome.pure_eq, toRealPath_valid store path sp hlen hsp hval]
  simp [Outcome.andThen, Outcome.call, Outcome.ret, hr, foldl_insert_name]

/-- C17: for a virtual path accepted by the gate and a listing `entries` of its real
path, `readDirectory` returns a set that holds exactly the names of the listing: a name
is in the set if and only if an entry has it, a name listed several times is in the set
once (the set has as many elements as the listing has distinct names), and a listing
with the same entries in another order gives the same set. -/
theorem readDirectory_returns_set_of_names (store : Store) (path sp : Path)
    (entries : List DirEntry)
    (hlen : store.storeDir.length ≤ path.length)
    (hsp : store.toStorePath path = .ok sp) (hval : store.isValidPath sp = true)
    (hr : store.readDirectory (store.realStoreDir ++ path.drop store.storeDir.length)
      = .ok entries) :
    ∃ names, (readDirectory store path).result = .ok names ∧
      names = entries.foldl (fun res entry => insert entry.name res) ∅ ∧
      (∀ n, n ∈ names ↔ ∃ e ∈ entries, e.name = n) ∧
      (∀ n ∈ names, names.val.count n = 1) ∧
      names.card = ((entries.map DirEntry.name).dedup).length ∧
      (∀ (store2 : Store) (path2 sp2 : Path) (entries2 : List DirEntry),
        store2.storeDir.length ≤ path2.length →
        store2.toStorePath path2 = .ok sp2 → store2.isValidPath sp2 = true →
        store2.readDirectory (store2.realStoreDir ++ path2.drop store2.storeDir.length)
          = .ok entries2 →
        entries2.Perm entries →
        (readDirectory store2 path2).result = .ok names) := by
  refine ⟨(entries.map DirEntry.name).toFinset, ?_, ?_, ?_, ?_, ?_, ?_⟩
  · rw [readDirectory_eq store path sp entries hlen hsp hval hr]
  · rw [foldl_insert_name, Finset.empty_union]
  · intro n
    simp only [List.mem_toFinset, List.mem_map]
  · intro n hn
    exact Multiset.count_eq_one_of_mem (Finset.nodup _) hn
  · exact List.card_toFinset _
  · intro store2 path2 sp2 entries2 hlen2 hsp2 hval2 hr2 hperm
    rw [readDirectory_eq store2 path2 sp2 entries2 hlen2 hsp2 hval2 hr2]
    exact congrArg Except.ok (List.toFinset_eq_of_perm _ _ (hperm.map DirEntry.name))

/-- Witness of C17: the directory `lib` of the stub store is listed as `libz.so`,
`liba.so`, `libz.so`; the result has the two names. -/
theorem readDirectory_returns_set_of_names_witness :
    statStore.readDirectory "/mnt/real/abc-foo/lib".toList
      = .ok [⟨"libz.so".toList⟩, ⟨"liba.so".toList⟩, ⟨"libz.so".toList⟩] ∧
    (readDirectory statStore "/nix/store/abc-foo/lib".toList).result
      = .ok {"liba.so".toList, "libz.so".toList} ∧
    (∃ names, (readDirectory statStore "/nix/store/abc-foo/lib".toList).result = .ok names ∧
      names.card = 2) :=
  ⟨by decide, by decide,
    match readDirectory_returns_set_of_names statStore "/nix/store/abc-foo/lib".toList
      "/nix/store/abc-foo".toList
      [⟨"libz.so".toList⟩, ⟨"liba.so".toList⟩, ⟨"libz.so".toList⟩]
      (by decide) (by decide) (by decide) (by decide) with
    | ⟨names, h1, _, _, _, h5, _⟩ => ⟨names, h1, h5.trans (by decide)⟩⟩

/-! ## The range of the path translation -/

/-- With an owning store path that is valid and a path shorter than the store directory,
`toRealPath` fails with `std::out_of_range` after the validity query. -/
theorem toRealPath_short (store : Store) (path sp : Path)
    (hlen : path.length < store.storeDir.length)
    (hsp : store.toStorePath path = .ok sp) (hval : store.isValidPath sp = true) :
    toRealPath store path = ⟨.error Exn.outOfRange, [Call.isValidPath sp]⟩ := by
  simp [toRealPath, Outcome.andThen, Outcome.lift, Outcome.call, Outcome.ret, substrFrom,
    hsp, hval, hlen]

/-- Counterexample to C18: with the store directory `/nix/store` and the path `/nix`,
extracting `path[len(storeDir):]` is out of range: there is no result, and both
`narFromPath` and `toRealPath` fail with `std::out_of_range` once the gate has accepted
the path. -/
theorem translation_of_short_path_is_out_of_range :
    "/nix".toList.length < shortPathStore.storeDir.length ∧
    substrFrom "/nix".toList shortPathStore.storeDir.length = .error Exn.outOfRange ∧
    (¬ ∃ suffix, substrFrom "/nix".toList shortPathStore.storeDir.length = .ok suffix) ∧
    narFromPath shortPathStore "/nix".toList 0
      = ⟨.error Exn.outOfRange, [Call.isValidPath "/nix".toList]⟩ ∧
    toRealPath shortPathStore "/nix".toList
      = ⟨.error Exn.outOfRange, [Call.isValidPath "/nix".toList]⟩ := by
  refine ⟨by decide, by decide, ?_, by decide, by decide⟩
  rintro ⟨suffix, h⟩
  have h2 : substrFrom "/nix".toList shortPathStore.storeDir.length
      = .error Exn.outOfRange := by decide
  rw [h2] at h
  cases h

/-- C18, amended: the translation step `realStoreDir + path[len(storeDir):]` yields a
result exactly when the path is at least as long as the store directory, and the result
is then the real root followed by the rest of the path; it calls no collaborator. For a
shorter path `std::string(path, len(storeDir))` throws `std::out_of_range`, and
`toRealPath` and `narFromPath` fail with it once their gate has accepted the path,
before any filesystem or encoder call. -/
theorem translation_total_iff_long_enough (store : Store) (path : Path) :
    ((∃ suffix, substrFrom path store.storeDir.length = .ok suffix) ↔
      store.storeDir.length ≤ path.length) ∧
    (store.storeDir.length ≤ path.length →
      substrFrom path store.storeDir.length = .ok (path.drop store.storeDir.length) ∧
      (∀ sp, store.toStorePath path = .ok sp → store.isValidPath sp = true →
        toRealPath store path =
          ⟨.ok (store.realStoreDir ++ path.drop store.storeDir.length),
            [Call.isValidPath sp]⟩) ∧
      (∀ sink, store.isValidPath path = true →
        narFromPath store path sink =
          ⟨store.dumpPath (store.realStoreDir ++ path.drop store.storeDir.length) sink,
            [Call.isValidPath path,
             Call.dumpPath (store.realStoreDir ++ path.drop store.storeDir.length) sink]⟩)) ∧
    (path.length < store.storeDir.length →
      substrFrom path store.storeDir.length = .error Exn.outOfRange ∧
      (∀ sp, store.toStorePath path = .ok sp → store.isValidPath sp = true →
        toRealPath store path = ⟨.error Exn.outOfRange, [Call.isValidPath sp]⟩) ∧
      (∀ sink, store.isValidPath path = true →
        narFromPath store path sink
          = ⟨.error Exn.outOfRange, [Call.isValidPath path]⟩)) := by
  refine ⟨⟨?_, ?_⟩, ?_, ?_⟩
  · rintro ⟨suffix, h⟩
    by_contra hlt
    have hlt2 : path.length < store.storeDir.length := Nat.lt_of_not_le hlt
    simp [substrFrom, hlt2] at h
  · intro hlen
    have h : ¬ path.length < store.storeDir.length := Nat.not_lt.mpr hlen
    exact ⟨path.drop store.storeDir.length, by simp [substrFrom, h]⟩
  · intro hlen
    have h : ¬ path.length < store.storeDir.length := Nat.not_lt.mpr hlen
    refine ⟨by simp [substrFrom, h], ?_, ?_⟩
    · intro sp hsp hval
      exact toRealPath_valid store path sp hlen hsp hval
    · intro sink hval
      exact narFromPath_valid store path sink hval hlen
  · intro hlt
    refine ⟨by simp [substrFrom, hlt], ?_, ?_⟩
    · intro sp hsp hval
      exact toRealPath_short store path sp hlt hsp hval
    · intro sink hval
      exact narFromPath_short store path sink hval hlt

/-- Witness of C18, amended: `/nix/store/abc-foo` is long enough and translates to
`/mnt/real/abc-foo`; `/nix` is too short. -/
theorem translation_total_iff_long_enough_witness :
    substrFrom "/nix/store/abc-foo".toList accessorStore.storeDir.length
      = .ok "/abc-foo".toList ∧
    toRealPath accessorStore "/nix/store/abc-foo".toList
      = ⟨.ok "/mnt/real/abc-foo".toList, [Call.isValidPath "/nix/store/abc-foo".toList]⟩ ∧
    substrFrom "/nix".toList accessorStore.storeDir.length = .error Exn.outOfRange :=
  ⟨((translation_total_iff_long_enough accessorStore "/nix/store/abc-foo".toList).2.1
      (by decide)).1,
    ((translation_total_iff_long_enough accessorStore "/nix/store/abc-foo".toList).2.1
      (by decide)).2.1 "/nix/store/abc-foo".toList (by decide) (by decide),
    ((translation_total_iff_long_enough accessorStore "/nix".toList).2.2
      (by decide)).1⟩

/-! ## Read failures in the build-log search -/

/-- An iteration whose plain file exists and cannot be read fails with the exception of
`readFile`. -/
theorem tierOutcome_of_plain_read_failure (store : Store) (p : Path) (e : Exn)
    (h1 : store.pathExists p = true) (h2 : store.readFile p = .error e) :
    tierOutcome store p = ⟨.error e, [Call.pathExists p, Call.readFile p]⟩ := by
  rw [tierOutcome_plain store p h1, h2]
  rfl

/-- An iteration whose plain file is absent and whose compressed file exists and cannot
be read: an exception derived from `Error` is caught and the iteration falls through,
any other exception is thrown on. -/
theorem tierOutcome_of_bz2_read_failure (store : Store) (p : Path) (e : Exn)
    (h1 : store.pathExists p = false) (h2 : store.pathExists (bz2Of p) = true)
    (h3 : store.readFile (bz2Of p) = .error e) :
    tierOutcome store p =
      ⟨if e.isError then .ok none else .error e,
        [Call.pathExists p, Call.pathExists (bz2Of p), Call.readFile (bz2Of p)]⟩ := by
  simp [tierOutcome, h1, h2, h3]

/-- The search stops with the exception of its first iteration. -/
theorem getBuildLogLoop_of_error (store : Store) (b : List Char) (hb : 2 ≤ b.length)
    (e : Exn) (h0 : (tierOutcome store (hashedLogPath store.logDir b)).result = .error e) :
    getBuildLogLoop store b 0 2
      = ⟨.error e, (tierOutcome store (hashedLogPath store.logDir b)).calls⟩ := by
  rw [getBuildLogLoop_eq store b hb]
  unfold Outcome.andThen
  simp only [h0]

/-- An iteration whose plain file is absent and whose compressed file is read and fails
to decompress: an exception derived from `Error` is caught and the iteration falls
through, any other exception is thrown on. -/
theorem tierOutcome_of_decompress_failure (store : Store) (p : Path) (data : List Char)
    (e : Exn)
    (h1 : store.pathExists p = false) (h2 : store.pathExists (bz2Of p) = true)
    (h3 : store.readFile (bz2Of p) = .ok data)
    (h4 : store.decompress "bzip2".toList data = .error e) :
    tierOutcome store p =
      ⟨if e.isError then .ok none else .error e,
        [Call.pathExists p, Call.pathExists (bz2Of p), Call.readFile (bz2Of p),
         Call.decompress "bzip2".toList data]⟩ := by
  unfold tierOutcome
  generalize "bzip2".toList = m at h4 ⊢
  simp [h1, h2, h3, h4]

/-- Counterexample to C19: in the stub store the hashed `.bz2` log exists and reading it
fails with a `SysError`; `getBuildLog` does not surface the error: it goes on and
returns the flat plain log. -/
theorem getBuildLog_swallows_bz2_read_failure :
    unreadableBz2Store.pathExists "/var/log/nix/drvs/ab/cdef.drv.bz2".toList = true ∧
    unreadableBz2Store.readFile "/var/log/nix/drvs/ab/cdef.drv.bz2".toList
      = .error (Exn.sysError "Permission denied".toList) ∧
    getBuildLog unreadableBz2Store "/nix/store/abcdef.drv".toList =
      ⟨.ok (some "flat log".toList),
        [Call.pathExists "/var/log/nix/drvs/ab/cdef.drv".toList,
         Call.pathExists "/var/log/nix/drvs/ab/cdef.drv.bz2".toList,
         Call.readFile "/var/log/nix/drvs/ab/cdef.drv.bz2".toList,
         Call.pathExists "/var/log/nix/drvs/abcdef.drv".toList,
         Call.readFile "/var/log/nix/drvs/abcdef.drv".toList]⟩ ∧
    (getBuildLog unreadableBz2Store "/nix/store/abcdef.drv".toList).result
      ≠ .error (Exn.sysError "Permission denied".toList) := by
  decide

/-- C19, amended: in `getBuildLog`, for a derivation store path, a failure of `readFile`
on a plain log file that exists is surfaced to the caller. The `.bz2` candidate is read
and decompressed inside the `try` block: an exception raised by `readFile` on a `.bz2`
file that exists, or by `decompress` on its contents, is swallowed when it derives from
`Error` (as the `SysError` of an I/O failure and a decompression failure do): the
candidate counts as absent and the search goes on with the next tier, or returns absent
after the last. An exception from either call that does not derive from `Error` is
surfaced. -/
theorem getBuildLog_read_failure (store : Store) (path : Path) (e : Exn)
    (hsp : store.assertStorePath path = .ok ()) (hdrv : store.isDerivation path = true)
    (hb : 2 ≤ (store.baseNameOf path).length) :
    (store.pathExists (hashedLogPath store.logDir (store.baseNameOf path)) = true →
      store.readFile (hashedLogPath store.logDir (store.baseNameOf path)) = .error e →
      getBuildLog store path =
        ⟨.error e,
          [Call.pathExists (hashedLogPath store.logDir (store.baseNameOf path)),
           Call.readFile (hashedLogPath store.logDir (store.baseNameOf path))]⟩) ∧
    (store.pathExists (hashedLogPath store.logDir (store.baseNameOf path)) = false →
      store.pathExists (bz2Of (hashedLogPath store.logDir (store.baseNameOf path))) = true →
      store.readFile (bz2Of (hashedLogPath store.logDir (store.baseNameOf path)))
        = .error e →
      (e.isError = true →
        getBuildLog store path =
          ⟨(getBuildLogTier store (store.baseNameOf path) 1).result,
            [Call.pathExists (hashedLogPath store.logDir (store.baseNameOf path)),
             Call.pathExists (bz2Of (hashedLogPath store.logDir (store.baseNameOf path))),
             Call.readFile (bz2Of (hashedLogPath store.logDir (store.baseNameOf path)))]
            ++ (getBuildLogTier store (store.baseNameOf path) 1).calls⟩) ∧
      (e.isError = false → (getBuildLog store path).result = .error e)) ∧
    (store.pathExists (hashedLogPath store.logDir (store.baseNameOf path)) = false →
      store.pathExists (bz2Of (hashedLogPath store.logDir (store.baseNameOf path))) = false →
      (store.pathExists (flatLogPath store.logDir (store.baseNameOf path)) = true →
        store.readFile (flatLogPath store.logDir (store.baseNameOf path)) = .error e →
        (getBuildLog store path).result = .error e) ∧
      (store.pathExists (flatLogPath store.logDir (store.baseNameOf path)) = false →
        store.pathExists (bz2Of (flatLogPath store.logDir (store.baseNameOf path))) = true →
        store.readFile (bz2Of (flatLogPath store.logDir (store.baseNameOf path)))
          = .error e →
        (getBuildLog store path).result = if e.isError then .ok none else .error e)) ∧
    (store.pathExists (hashedLogPath store.logDir (store.baseNameOf path)) = false →
      store.pathExists (bz2Of (hashedLogPath store.logDir (store.baseNameOf path))) = true →
      ∀ data,
      store.readFile (bz2Of (hashedLogPath store.logDir (store.baseNameOf path)))
        = .ok data →
      store.decompress "bzip2".toList data = .error e →
      (e.isError = true →
        getBuildLog store path =
          ⟨(getBuildLogTier store (store.baseNameOf path) 1).result,
            [Call.pathExists (hashedLogPath store.logDir (store.baseNameOf path)),
             Call.pathExists (bz2Of (hashedLogPath store.logDir (store.baseNameOf path))),
             Call.readFile (bz2Of (hashedLogPath store.logDir (store.baseNameOf path))),
             Call.decompress "bzip2".toList data]
            ++ (getBuildLogTier store (store.baseNameOf path) 1).calls⟩) ∧
      (e.isError = false →
        getBuildLog store path =
          ⟨.error e,
            [Call.pathExists (hashedLogPath store.logDir (store.baseNameOf path)),
             Call.pathExists (bz2Of (hashedLogPath store.logDir (store.baseNameOf path))),
             Call.readFile (bz2Of (hashedLogPath store.logDir (store.baseNameOf path))),
             Call.decompress "bzip2".toList data]⟩)) ∧
    (store.pathExists (hashedLogPath store.logDir (store.baseNameOf path)) = false →
      store.pathExists (bz2Of (hashedLogPath store.logDir (store.baseNameOf path))) = false →
      store.pathExists (flatLogPath store.logDir (store.baseNameOf path)) = false →
      store.pathExists (bz2Of (flatLogPath store.logDir (store.baseNameOf path))) = true →
      ∀ data,
      store.readFile (bz2Of (flatLogPath store.logDir (store.baseNameOf path))) = .ok data →
      store.decompress "bzip2".toList data = .error e →
      (getBuildLog store path).result = if e.isError then .ok none else .error e) := by
  have hg := getBuildLog_of_derivation store path hsp hdrv
  refine ⟨?_, ?_, ?_, ?_, ?_⟩
  · intro h1 h2
    have t0 := tierOutcome_of_plain_read_failure store _ e h1 h2
    rw [hg, getBuildLogLoop_of_error store _ hb e (by rw [t0]), t0]
  · intro h1 h2 h3
    have t0 := tierOutcome_of_bz2_read_failure store _ e h1 h2 h3
    refine ⟨?_, ?_⟩
    · intro he
      rw [he, if_pos rfl] at t0
      rw [hg, getBuildLogLoop_of_fallthrough store _ hb (by rw [t0]), t0,
        getBuildLogTier_one]
    · intro he
      rw [he, if_neg Bool.false_ne_true] at t0
      rw [hg, getBuildLogLoop_of_error store _ hb e (by rw [t0])]
  · intro h1 h2
    have t0 := tierOutcome_of_absent store _ h1 h2
    have hres : (getBuildLog store path).result
        = (tierOutcome store (flatLogPath store.logDir (store.baseNameOf path))).result := by
      rw [hg, getBuildLogLoop_of_fallthrough store _ hb (by rw [t0])]
    refine ⟨?_, ?_⟩
    · intro h3 h4
      rw [hres, tierOutcome_of_plain_read_failure store _ e h3 h4]
    · intro h3 h4 h5
      rw [hres, tierOutcome_of_bz2_read_failure store _ e h3 h4 h5]
  · intro h1 h2 data h3 h4
    have t0 := tierOutcome_of_decompress_failure store _ data e h1 h2 h3 h4
    refine ⟨?_, ?_⟩
    · intro he
      rw [he, if_pos rfl] at t0
      rw [hg, getBuildLogLoop_of_fallthrough store _ hb (by rw [t0]), t0,
        getBuildLogTier_one]
    · intro he
      rw [he, if_neg Bool.false_ne_true] at t0
      rw [hg, getBuildLogLoop_of_error store _ hb e (by rw [t0]), t0]
  · intro h1 h2 h3 h4 data h5 h6
    have t0 := tierOutcome_of_absent store _ h1 h2
    rw [hg, getBuildLogLoop_of_fallthrough store _ hb (by rw [t0]),
      tierOutcome_of_decompress_failure store _ data e h3 h4 h5 h6]

/-- Witness of C19, amended: an unreadable hashed plain log makes `getBuildLog` fail
with the `SysError`; an unreadable hashed `.bz2` log does not, and neither does a
hashed `.bz2` log that fails to decompress with an `Error`; a codec that throws
`std::out_of_range` makes `getBuildLog` fail with it. -/
theorem getBuildLog_read_failure_witness :
    getBuildLog unreadablePlainStore "/nix/store/abcdef.drv".toList =
      ⟨.error (Exn.sysError "Permission denied".toList),
        [Call.pathExists "/var/log/nix/drvs/ab/cdef.drv".toList,
         Call.readFile "/var/log/nix/drvs/ab/cdef.drv".toList]⟩ ∧
    getBuildLog unreadableBz2Store "/nix/store/abcdef.drv".toList =
      ⟨.ok (some "flat log".toList),
        [Call.pathExists "/var/log/nix/drvs/ab/cdef.drv".toList,
         Call.pathExists "/var/log/nix/drvs/ab/cdef.drv.bz2".toList,
         Call.readFile "/var/log/nix/drvs/ab/cdef.drv.bz2".toList,
         Call.pathExists "/var/log/nix/drvs/abcdef.drv".toList,
         Call.readFile "/var/log/nix/drvs/abcdef.drv".toList]⟩ ∧
    corruptHashedStore.decompress "bzip2".toList "garbage".toList
      = .error (Exn.error "decompression failed".toList) ∧
    getBuildLog corruptHashedStore "/nix/store/abcdef.drv".toList =
      ⟨.ok (some "flat log".toList),
        [Call.pathExists "/var/log/nix/drvs/ab/cdef.drv".toList,
         Call.pathExists "/var/log/nix/drvs/ab/cdef.drv.bz2".toList,
         Call.readFile "/var/log/nix/drvs/ab/cdef.drv.bz2".toList,
         Call.decompress "bzip2".toList "garbage".toList,
         Call.pathExists "/var/log/nix/drvs/abcdef.drv".toList,
         Call.pathExists "/var/log/nix/drvs/abcdef.drv.bz2".toList,
         Call.readFile "/var/log/nix/drvs/abcdef.drv.bz2".toList,
         Call.decompress "bzip2".toList "BZflat log".toList]⟩ ∧
    getBuildLog throwingCodecStore "/nix/store/abcdef.drv".toList =
      ⟨.error Exn.outOfRange,
        [Call.pathExists "/var/log/nix/drvs/ab/cdef.drv".toList,
         Call.pathExists "/var/log/nix/drvs/ab/cdef.drv.bz2".toList,
         Call.readFile "/var/log/nix/drvs/ab/cdef.drv.bz2".toList,
         Call.decompress "bzip2".toList "BZhashed log".toList]⟩ :=
  ⟨(getBuildLog_read_failure unreadablePlainStore "/nix/store/abcdef.drv".toList
      (Exn.sysError "Permission denied".toList) (by decide) (by decide) (by decide)).1
      (by decide) (by decide),
    ((getBuildLog_read_failure unreadableBz2Store "/nix/store/abcdef.drv".toList
      (Exn.sysError "Permission denied".toList) (by decide) (by decide) (by decide)).2.1
      (by decide) (by decide) (by decide)).1 (by decide),
    by decide,
    ((getBuildLog_read_failure corruptHashedStore "/nix/store/abcdef.drv".toList
      (Exn.error "decompression failed".toList) (by decide) (by decide)
      (by decide)).2.2.2.1
      (by decide) (by decide) "garbage".toList (by decide) (by decide)).1 (by decide),
    ((getBuildLog_read_failure throwingCodecStore "/nix/store/abcdef.drv".toList
      Exn.outOfRange (by decide) (by decide) (by decide)).2.2.2.1
      (by decide) (by decide) "BZhashed log".toList (by decide) (by decide)).2 (by decide)⟩

/-! ## The shard split -/

/-- C20: the two extractions of tier 0 are in range exactly for a base name `b` of at
least two characters. For such a `b`, `string(b, 0, 2)` and `string(b, 2)` are `b[0:2]`
and `b[2:]`, they give back `b` when put together, the tier-0 path is built without a
failure, and that path without the separator after the shard is the flat path. For a
shorter `b`, `string(b, 2)` throws `std::out_of_range`: the search fails before any
probe, and so does `getBuildLog` on a derivation with that base name. -/
theorem shard_split_lossless_iff_two_chars (store : Store) (b : List Char) :
    ((∃ path, logPathOf store b 0 = Outcome.ret path) ↔ 2 ≤ b.length) ∧
    (2 ≤ b.length →
      substr b 0 2 = .ok (b.take 2) ∧ substrFrom b 2 = .ok (b.drop 2) ∧
      b.take 2 ++ b.drop 2 = b ∧
      logPathOf store b 0 = Outcome.ret (hashedLogPath store.logDir b) ∧
      store.logDir ++ "/drvs/".toList ++ b.take 2 ++ b.drop 2
        = flatLogPath store.logDir b) ∧
    (b.length < 2 →
      substrFrom b 2 = .error Exn.outOfRange ∧
      logPathOf store b 0 = ⟨.error Exn.outOfRange, []⟩ ∧
      getBuildLogLoop store b 0 2 = ⟨.error Exn.outOfRange, []⟩ ∧
      (∀ path, store.assertStorePath path = .ok () → store.isDerivation path = true →
        store.baseNameOf path = b →
        getBuildLog store path = ⟨.error Exn.outOfRange, []⟩)) := by
  have hshort : b.length < 2 → logPathOf store b 0 = ⟨.error Exn.outOfRange, []⟩ := by
    intro hlt
    simp [logPathOf, substr, substrFrom, Outcome.lift, Outcome.andThen, hlt]
  refine ⟨⟨?_, ?_⟩, ?_, ?_⟩
  · rintro ⟨path, h⟩
    by_contra hlt
    rw [hshort (Nat.lt_of_not_le hlt)] at h
    have := congrArg Outcome.result h
    simp [Outcome.ret] at this
  · intro hb
    exact ⟨_, logPathOf_zero store b hb⟩
  · intro hb
    have h : ¬ b.length < 2 := Nat.not_lt.mpr hb
    refine ⟨by simp [substr], by simp [substrFrom, h], List.take_append_drop 2 b,
      logPathOf_zero store b hb, ?_⟩
    rw [List.append_assoc, List.take_append_drop]
    rfl
  · intro hlt
    refine ⟨by simp [substrFrom, hlt], hshort hlt, getBuildLogLoop_short store b hlt, ?_⟩
    intro path hsp hdrv hbn
    rw [getBuildLog_of_derivation store path hsp hdrv, hbn]
    exact getBuildLogLoop_short store b hlt

/-- Witness of C20: `x1y2-foo` splits into `x1` and `y2-foo`; for the base name `a` the
extraction is out of range. -/
theorem shard_split_lossless_iff_two_chars_witness :
    substr "x1y2-foo".toList 0 2 = .ok "x1".toList ∧
    substrFrom "x1y2-foo".toList 2 = .ok "y2-foo".toList ∧
    logPathOf (stubStore [] [] []) "x1y2-foo".toList 0
      = Outcome.ret "/var/log/nix/drvs/x1/y2-foo".toList ∧
    getBuildLogLoop (stubStore [] [] []) "a".toList 0 2 = ⟨.error Exn.outOfRange, []⟩ :=
  ⟨((shard_split_lossless_iff_two_chars (stubStore [] [] []) "x1y2-foo".toList).2.1
      (by decide)).1,
    ((shard_split_lossless_iff_two_chars (stubStore [] [] []) "x1y2-foo".toList).2.1
      (by decide)).2.1,
    ((shard_split_lossless_iff_two_chars (stubStore [] [] []) "x1y2-foo".toList).2.1
      (by decide)).2.2.2.1,
    ((shard_split_lossless_iff_two_chars (stubStore [] [] []) "a".toList).2.2
      (by decide)).2.2.1⟩

end Nix
